import Mathlib

set_option maxHeartbeats 1000000

namespace Itinerary

/-!
Shallow embedding of the day-organization engine of the itinerary generator:
src/agent/tools.py (organize_attractions_by_days with its helpers
_calculate_centroid, _order_attractions_nearest_neighbor,
_validate_day_assignments, plus request_itinerary_approval and
update_itinerary_organization) and src/agent/agent_definition.py
(the attraction_researcher_node retry loop).

Modelling conventions: Python floats become rationals; Python dicts become
association lists in insertion order; the iteration order of Python sets
(which CPython does not fix) is an explicit parameter constrained to be a
permutation; the external k-means fits (sklearn KMeans and
KMeansConstrained) are explicit function parameters returning labels and
cluster centers; the geodesic distance of geopy is an explicit function
parameter.
-/

abbrev Coord := ℚ × ℚ

abbrev CoordMap := List (String × Coord)

/-- Python dict lookup on an association list; the first matching key wins. -/
def alookup {α β : Type} [DecidableEq α] : List (α × β) → α → Option β
  | [], _ => none
  | p :: t, k => if p.1 = k then some p.2 else alookup t k

/-- Keys of an association list, in insertion order. -/
def akeys {α β : Type} (l : List (α × β)) : List α := l.map Prod.fst

/-- Python min over a nonempty list with a key function: scans left to right
with a strict comparison, so the first element attaining the minimum wins. -/
def pyMin {α : Type} (f : α → ℚ) (a : α) (l : List α) : α :=
  l.foldl (fun best x => if f x < f best then x else best) a

/-- Python min over a possibly empty list, as used for the greedy
cluster-to-day matching where the candidate set can be exhausted. -/
def pyMinO {α : Type} (f : α → ℚ) : List α → Option α
  | [] => none
  | a :: t => some (pyMin f a t)

/-- Coordinate of an attraction, defaulting to the origin; the default is
only reached for names outside the coordinate dict, which the source never
indexes. -/
def coordOf (coordinates : CoordMap) (a : String) : Coord :=
  (alookup coordinates a).getD ((0 : ℚ), (0 : ℚ))

/-- Membership test mirroring the Python expression a in coordinates. -/
def hasCoord (coordinates : CoordMap) (a : String) : Bool :=
  (alookup coordinates a).isSome

/-- Embedding of _calculate_centroid: mean latitude and longitude of the
names that are present in the coordinate dict, None when nothing remains. -/
def calculateCentroid (coordinates : CoordMap) (names : List String) : Option Coord :=
  if names = [] then none
  else
    match names.filterMap (fun n => alookup coordinates n) with
    | [] => none
    | pt :: pts =>
      some ((((pt :: pts).map Prod.fst).sum / ((pt :: pts).length : ℚ)),
        (((pt :: pts).map Prod.snd).sum / ((pt :: pts).length : ℚ)))

/-- Embedding of the while-loop of _order_attractions_nearest_neighbor. The
fuel argument bounds the iteration count and is always instantiated with the
length of the remaining set, which the loop consumes one element per step.
The list argument carries the iteration order of the Python set of remaining
attractions; CPython removals keep the relative order of the survivors, which
List.erase models. -/
def nnLoopF (dist : Coord → Coord → ℚ) (coordinates : CoordMap) :
    Nat → String → List String → List String
  | 0, _, _ => []
  | _ + 1, _, [] => []
  | fuel + 1, cur, r :: rs =>
    (pyMin (fun a => dist (coordOf coordinates a) (coordOf coordinates cur)) r rs) ::
      nnLoopF dist coordinates fuel
        (pyMin (fun a => dist (coordOf coordinates a) (coordOf coordinates cur)) r rs)
        ((r :: rs).erase
          (pyMin (fun a => dist (coordOf coordinates a) (coordOf coordinates cur)) r rs))

/-- Validity test for the user-supplied starting point: Python requires the
string to be truthy (non-empty) and a member of the attractions that carry
coordinates. -/
def startValid (startingPoint : Option String) (awc : List String) : Option String :=
  match startingPoint with
  | some s => if s ≠ "" ∧ s ∈ awc then some s else none
  | none => none

/-- Route built from a chosen first attraction: the nearest-neighbor
traversal over the remaining set followed by the attractions without
coordinates. -/
def startRouteFrom (setE : List String → List String) (dist : Coord → Coord → ℚ)
    (coordinates : CoordMap) (awc woc : List String) (first : String) : List String :=
  first :: nnLoopF dist coordinates ((setE awc).erase first).length first
    ((setE awc).erase first) ++ woc

/-- Embedding of _order_attractions_nearest_neighbor. The parameter setE
supplies the iteration order of the Python set built from the
coordinate-bearing attractions; theorems constrain it to a permutation. -/
def orderNN (setE : List String → List String) (dist : Coord → Coord → ℚ)
    (coordinates : CoordMap) (attractions : List String)
    (startingPoint : Option String) : List String :=
  if attractions.length ≤ 1 then attractions
  else
    if (attractions.filter (hasCoord coordinates)).length ≤ 1 then attractions
    else
      match startValid startingPoint (attractions.filter (hasCoord coordinates)) with
      | some s =>
        startRouteFrom setE dist coordinates (attractions.filter (hasCoord coordinates))
          (attractions.filter (fun a => !hasCoord coordinates a)) s
      | none =>
        match attractions.filter (hasCoord coordinates),
            calculateCentroid coordinates (attractions.filter (hasCoord coordinates)) with
        | a :: t, some c =>
          startRouteFrom setE dist coordinates (attractions.filter (hasCoord coordinates))
            (attractions.filter (fun a => !hasCoord coordinates a))
            (pyMin (fun x => dist (coordOf coordinates x) c) a t)
        | _, _ => attractions

/-- Python dict merge as in the expression uniting preferences and isolated
days: keys of the left dict first in their order, then the new keys of the
right dict; on a shared key the right value wins. -/
def pyMerge (a b : List (String × Int)) : List (String × Int) :=
  a.map (fun p => (p.1, (alookup b p.1).getD p.2)) ++
    b.filter (fun p => !(akeys a).contains p.1)

/-- One step of the Python grouping loop result_by_day.setdefault(key, []).append(name):
append the name to the bucket of its day, creating the bucket at the end on
first use. -/
def addToBucket (acc : List (Int × List String)) (d : Int) (n : String) :
    List (Int × List String) :=
  if acc.any (fun p => p.1 == d) then
    acc.map (fun p => if p.1 = d then (p.1, p.2 ++ [n]) else p)
  else acc ++ [(d, [n])]

/-- Grouping of an assignment list name-to-day into day buckets, bucket keys
in first-appearance order as a Python dict produces. -/
def groupByDay (asg : List (String × Int)) : List (Int × List String) :=
  asg.foldl (fun acc p => addToBucket acc p.2 p.1) []

/-- Multiset of all names stored in the buckets. -/
def bjoin (acc : List (Int × List String)) : List String := (acc.map Prod.snd).flatten

/-- Day-level starting point filter of the source: the user starting point is
forwarded to the route orderer only when it is a member of the day list. -/
def dayStart (startingPoint : Option String) (attractions : List String) : Option String :=
  match startingPoint with
  | some s => if s ∈ attractions then some s else none
  | none => none

/-- Grouping plus optional within-day nearest-neighbor ordering, shared by
both scenarios of organize_attractions_by_days. -/
def buildDays (setE : List String → List String) (dist : Coord → Coord → ℚ)
    (coordinates : CoordMap) (asg : List (String × Int)) (startingPoint : Option String)
    (optimize : Bool) : List (Int × List String) :=
  if optimize then
    (groupByDay asg).map
      (fun p => (p.1, orderNN setE dist coordinates p.2 (dayStart startingPoint p.2)))
  else groupByDay asg

/-- Error outcomes of organize_attractions_by_days; each constructor stands
for one distinct error message of the source, carrying the data interpolated
into that message. -/
inductive OrgError where
  | incompleteCoordinates
  | noCoordinates
  | invalidDay (param : String) (name : String) (day : Int)
  | minBelowOne
  | maxBelowOne
  | minAboveMax (mn mx : Int)
  | missingCoordinates (names : List String)
  | reservedDayConflict (conflicts : List (String × Int))
  | noDaysForFlexible
  | infeasibleMin (sizeMin : Int) (nClusters : Nat) (required total : Int)
  | infeasibleMax (sizeMax : Int) (nClusters : Nat) (capacity total : Int)
deriving DecidableEq

/-- Successful state update of organize_attractions_by_days: the cluster
array aligned with the coordinate keys, the day buckets, and the flag that
triggers the approval checkpoint. -/
structure OkPayload where
  clusters : List Int
  organizedDays : List (Int × List String)
  hasFlexibleAttractions : Bool
deriving DecidableEq

/-- Embedding of _validate_day_assignments: first entry whose day is below 1
or above num_days, None when all pass; the integer type check of the source
is carried by the embedding types. -/
def validateDayAssignments (assignments : List (String × Int)) (numDays : Int) :
    Option (String × Int) :=
  assignments.find? (fun p => decide (p.2 < 1) || decide (numDays < p.2))

/-- Python test x is not None and x below 1 on an optional bound. -/
def optBelowOne : Option Int → Bool
  | some v => decide (v < 1)
  | none => false

/-- Python test that both bounds are set and min exceeds max. -/
def minAboveMaxB : Option Int → Option Int → Bool
  | some a, some b => decide (b < a)
  | _, _ => false

/-- Python truthiness default x if x else d on an optional integer. -/
def pyIntOr (o : Option Int) (dflt : Int) : Int :=
  match o with
  | some v => if v = 0 then dflt else v
  | none => dflt

/-- Isolated attractions restricted to names with coordinates. -/
def isolatedAOf (coordinates : CoordMap) (isolated : List (String × Int)) :
    List (String × Int) :=
  isolated.filter (fun p => (akeys coordinates).contains p.1)

/-- Preference attractions restricted to names with coordinates and not
already isolated; the source comment notes that isolated takes precedence. -/
def prefAOf (coordinates : CoordMap) (prefs isolated : List (String × Int)) :
    List (String × Int) :=
  prefs.filter (fun p =>
    (akeys coordinates).contains p.1 &&
      !(akeys (isolatedAOf coordinates isolated)).contains p.1)

/-- Flexible attractions: every coordinate key that is neither isolated nor
preferred. -/
def flexibleOf (coordinates : CoordMap) (prefs isolated : List (String × Int)) :
    List String :=
  (akeys coordinates).filter (fun n =>
    !(akeys (isolatedAOf coordinates isolated)).contains n &&
      !(akeys (prefAOf coordinates prefs isolated)).contains n)

/-- Days reserved by isolated attractions; only membership is ever used. -/
def reservedOf (coordinates : CoordMap) (isolated : List (String × Int)) : List Int :=
  (isolatedAOf coordinates isolated).map Prod.snd

/-- Python range(1, num_days + 1). -/
def dayRange (numDays : Int) : List Int :=
  (List.range numDays.toNat).map (fun i : Nat => (i : Int) + 1)

def daysForKmeansOf (numDays : Int) (coordinates : CoordMap)
    (isolated : List (String × Int)) : List Int :=
  (dayRange numDays).filter (fun d => !(reservedOf coordinates isolated).contains d)

def daysWithPrefValsOf (coordinates : CoordMap) (prefs isolated : List (String × Int)) :
    List Int :=
  (prefAOf coordinates prefs isolated).map Prod.snd

def freeDaysOf (numDays : Int) (coordinates : CoordMap)
    (prefs isolated : List (String × Int)) : List Int :=
  (daysForKmeansOf numDays coordinates isolated).filter
    (fun d => !(daysWithPrefValsOf coordinates prefs isolated).contains d)

/-- Pool of days for the flexible clusters: the enumeration of the set of
preference days (supplied by the parameter dwpE) followed by the free days. -/
def daysForFlexOf (dwpE : List Int → List Int) (numDays : Int) (coordinates : CoordMap)
    (prefs isolated : List (String × Int)) : List Int :=
  dwpE (daysWithPrefValsOf coordinates prefs isolated) ++
    freeDaysOf numDays coordinates prefs isolated

def nClustersOf (dwpE : List Int → List Int) (numDays : Int) (coordinates : CoordMap)
    (prefs isolated : List (String × Int)) : Nat :=
  min (daysForFlexOf dwpE numDays coordinates prefs isolated).length
    (flexibleOf coordinates prefs isolated).length

def coordsFlexOf (coordinates : CoordMap) (prefs isolated : List (String × Int)) :
    List Coord :=
  (flexibleOf coordinates prefs isolated).map (fun n => coordOf coordinates n)

/-- Centroid per preference day, in the enumeration order of the preference
day set; days whose centroid is None are skipped as in the source. -/
def prefCentroidsOf (coordinates : CoordMap) (prefA : List (String × Int))
    (dwpList : List Int) : List (Int × Coord) :=
  dwpList.filterMap (fun day =>
    (calculateCentroid coordinates ((prefA.filter (fun p => p.2 == day)).map Prod.fst)).map
      (fun c => (day, c)))

/-- First pass of the greedy cluster-to-day matching: every preference day
claims the nearest still-unclaimed cluster, ties going to the smallest
cluster id as the source loops over ids in order with a strict comparison.
The state is the cluster-to-day map plus the claimed days. -/
def pass1 (dist : Coord → Coord → ℚ) (centers : List Coord) (nClusters : Nat)
    (prefCentroids : List (Int × Coord)) : List (Nat × Int) × List Int :=
  prefCentroids.foldl
    (fun st dc =>
      match pyMinO (fun cid => dist dc.2 (centers.getD cid ((0 : ℚ), (0 : ℚ))))
          ((List.range nClusters).filter (fun cid => !(akeys st.1).contains cid)) with
      | some best => (st.1 ++ [(best, dc.1)], st.2 ++ [dc.1])
      | none => st)
    ([], [])

/-- Second pass: every still-unclaimed cluster takes the first unclaimed free
day, falling back to the first unclaimed day of the whole flexible pool. -/
def pass2 (nClusters : Nat) (freeDays daysForFlex : List Int)
    (st : List (Nat × Int) × List Int) : List (Nat × Int) × List Int :=
  (List.range nClusters).foldl
    (fun st cid =>
      if (akeys st.1).contains cid then st
      else
        match freeDays.find? (fun d => !st.2.contains d) with
        | some day => (st.1 ++ [(cid, day)], st.2 ++ [day])
        | none =>
          match daysForFlex.find? (fun d => !st.2.contains d) with
          | some day => (st.1 ++ [(cid, day)], st.2 ++ [day])
          | none => st)
    st

/-- Cluster-to-day map: without preferences the clusters are paired with the
pool days positionally; with preferences the two greedy passes run. -/
def clusterToDayOf (dist : Coord → Coord → ℚ) (coordinates : CoordMap)
    (centers : List Coord) (nClusters : Nat) (prefA : List (String × Int))
    (dwpList freeDays daysForFlex : List Int) : List (Nat × Int) :=
  if prefA = [] then (daysForFlex.take nClusters).enum
  else
    (pass2 nClusters freeDays daysForFlex
      (pass1 dist centers nClusters (prefCentroidsOf coordinates prefA dwpList))).1

/-- Day assigned to each flexible attraction from its k-means label, with the
source fallback cluster_to_day.get(cid, days_for_flex[0] if days_for_flex
else 1). -/
def flexDaysOf (flexible : List String) (labels : List Nat) (ctd : List (Nat × Int))
    (daysForFlex : List Int) : List (String × Int) :=
  flexible.enum.map (fun p =>
    (p.2, (alookup ctd (labels.getD p.1 0)).getD (daysForFlex.headD 1)))

/-- Final zero-based cluster index of one attraction, mirroring the three
write passes over the clusters array; the groups are disjoint so the last
write is the only write. -/
def clusterAssign (isolatedA prefA : List (String × Int)) (flexDay : String → Int)
    (n : String) : Int :=
  match alookup prefA n with
  | some d => d - 1
  | none =>
    match alookup isolatedA n with
    | some d => d - 1
    | none => flexDay n - 1

/-- Scenario 1 result: clusters aligned with the coordinate keys and the day
buckets grouped over the merged predefined days, optionally reordered. -/
def mkPredefinedPayload (setE : List String → List String) (dist : Coord → Coord → ℚ)
    (coordinates : CoordMap) (allDefined : List (String × Int))
    (startingPoint : Option String) (optimize : Bool) : OkPayload :=
  ⟨(akeys coordinates).map (fun n => (alookup allDefined n).getD 1 - 1),
   buildDays setE dist coordinates allDefined startingPoint optimize, false⟩

/-- Scenario 2 result: clusters from the per-name assignment and the day
buckets grouped over all coordinate keys, always reordered within a day. -/
def mkScenario2Payload (setE : List String → List String) (dist : Coord → Coord → ℚ)
    (coordinates : CoordMap) (isolatedA prefA : List (String × Int))
    (flexDay : String → Int) (startingPoint : Option String) : OkPayload :=
  ⟨(akeys coordinates).map (fun n => clusterAssign isolatedA prefA flexDay n),
   buildDays setE dist coordinates
     ((akeys coordinates).map (fun n => (n, clusterAssign isolatedA prefA flexDay n + 1)))
     startingPoint true, true⟩

/-- Scenario 2 result built from one k-means fit: labels and centers flow
into the cluster-to-day matching and the per-flexible-name day list. -/
def scenario2Fit (setE : List String → List String) (dist : Coord → Coord → ℚ)
    (coordinates : CoordMap) (prefs isolated : List (String × Int))
    (dwpE : List Int → List Int) (numDays : Int) (startingPoint : Option String)
    (lc : List Nat × List Coord) : OkPayload :=
  mkScenario2Payload setE dist coordinates (isolatedAOf coordinates isolated)
    (prefAOf coordinates prefs isolated)
    (fun n => (alookup (flexDaysOf (flexibleOf coordinates prefs isolated) lc.1
      (clusterToDayOf dist coordinates lc.2
        (nClustersOf dwpE numDays coordinates prefs isolated)
        (prefAOf coordinates prefs isolated)
        (dwpE (daysWithPrefValsOf coordinates prefs isolated))
        (freeDaysOf numDays coordinates prefs isolated)
        (daysForFlexOf dwpE numDays coordinates prefs isolated))
      (daysForFlexOf dwpE numDays coordinates prefs isolated)) n).getD 1)
    startingPoint

/-- Tail of organize_attractions_by_days from the size-constraint handling
onward: feasibility checks, the k-means fit invocation and the scenario 2
result. -/
def organizeFit (numDays : Int) (coordinates : CoordMap)
    (prefs isolated : List (String × Int)) (startingPoint : Option String)
    (minPerDay maxPerDay : Option Int) (dwpE : List Int → List Int)
    (kmU : List Coord → Nat → List Nat × List Coord)
    (kmC : List Coord → Nat → Int → Int → List Nat × List Coord)
    (setE : List String → List String) (dist : Coord → Coord → ℚ) :
    Except OrgError OkPayload :=
  if minPerDay.isSome || maxPerDay.isSome then
    if ((flexibleOf coordinates prefs isolated).length : Int) <
        pyIntOr minPerDay 0 *
          (nClustersOf dwpE numDays coordinates prefs isolated : Int) then
      .error (.infeasibleMin (pyIntOr minPerDay 0)
        (nClustersOf dwpE numDays coordinates prefs isolated)
        (pyIntOr minPerDay 0 *
          (nClustersOf dwpE numDays coordinates prefs isolated : Int))
        ((flexibleOf coordinates prefs isolated).length : Int))
    else if pyIntOr maxPerDay ((flexibleOf coordinates prefs isolated).length : Int) *
        (nClustersOf dwpE numDays coordinates prefs isolated : Int) <
        ((flexibleOf coordinates prefs isolated).length : Int) then
      .error (.infeasibleMax
        (pyIntOr maxPerDay ((flexibleOf coordinates prefs isolated).length : Int))
        (nClustersOf dwpE numDays coordinates prefs isolated)
        (pyIntOr maxPerDay ((flexibleOf coordinates prefs isolated).length : Int) *
          (nClustersOf dwpE numDays coordinates prefs isolated : Int))
        ((flexibleOf coordinates prefs isolated).length : Int))
    else
      .ok (scenario2Fit setE dist coordinates prefs isolated dwpE numDays startingPoint
        (kmC (coordsFlexOf coordinates prefs isolated)
          (nClustersOf dwpE numDays coordinates prefs isolated)
          (pyIntOr minPerDay 0)
          (pyIntOr maxPerDay ((flexibleOf coordinates prefs isolated).length : Int))))
  else
    .ok (scenario2Fit setE dist coordinates prefs isolated dwpE numDays startingPoint
      (kmU (coordsFlexOf coordinates prefs isolated)
        (nClustersOf dwpE numDays coordinates prefs isolated)))

/-- Middle of organize_attractions_by_days after the basic validations: the
coordinate-membership and reserved-day checks and the scenario split. -/
def organizeScenario (numDays : Int) (coordinates : CoordMap)
    (prefs isolated : List (String × Int)) (optimize : Bool)
    (startingPoint : Option String) (minPerDay maxPerDay : Option Int)
    (dwpE : List Int → List Int) (kmU : List Coord → Nat → List Nat × List Coord)
    (kmC : List Coord → Nat → Int → Int → List Nat × List Coord)
    (setE : List String → List String) (dist : Coord → Coord → ℚ) :
    Except OrgError OkPayload :=
  if (akeys (pyMerge prefs isolated)).filter
      (fun n => !(akeys coordinates).contains n) ≠ [] then
    .error (.missingCoordinates ((akeys (pyMerge prefs isolated)).filter
      (fun n => !(akeys coordinates).contains n)))
  else if (prefAOf coordinates prefs isolated).filter
      (fun p => (reservedOf coordinates isolated).contains p.2) ≠ [] then
    .error (.reservedDayConflict ((prefAOf coordinates prefs isolated).filter
      (fun p => (reservedOf coordinates isolated).contains p.2)))
  else if (flexibleOf coordinates prefs isolated).length = 0 then
    .ok (mkPredefinedPayload setE dist coordinates (pyMerge prefs isolated)
      startingPoint optimize)
  else if daysForFlexOf dwpE numDays coordinates prefs isolated = [] then
    .error .noDaysForFlexible
  else if nClustersOf dwpE numDays coordinates prefs isolated = 0 then
    .ok (mkScenario2Payload setE dist coordinates (isolatedAOf coordinates isolated)
      (prefAOf coordinates prefs isolated) (fun _ => 1) startingPoint)
  else
    organizeFit numDays coordinates prefs isolated startingPoint minPerDay maxPerDay
      dwpE kmU kmC setE dist

/-- Embedding of organize_attractions_by_days as an early-return chain. The
parameters dwpE, kmU, kmC, setE and dist model, in order, the iteration
order of the Python set of preference days, the unconstrained and the
size-constrained k-means fits (labels and cluster centers), the iteration
order of the route-orderer set, and the geodesic distance. -/
def organizeE (numDays : Int) (coordinates : CoordMap) (allCoordsOk : Bool)
    (prefs isolated : List (String × Int)) (optimize : Bool) (startingPoint : Option String)
    (minPerDay maxPerDay : Option Int) (dwpE : List Int → List Int)
    (kmU : List Coord → Nat → List Nat × List Coord)
    (kmC : List Coord → Nat → Int → Int → List Nat × List Coord)
    (setE : List String → List String) (dist : Coord → Coord → ℚ) :
    Except OrgError OkPayload :=
  if !allCoordsOk then .error .incompleteCoordinates
  else if coordinates = [] then .error .noCoordinates
  else
    match validateDayAssignments prefs numDays with
    | some p => .error (.invalidDay "day_preferences" p.1 p.2)
    | none =>
      match validateDayAssignments isolated numDays with
      | some p => .error (.invalidDay "isolated_days" p.1 p.2)
      | none =>
        if optBelowOne minPerDay then .error .minBelowOne
        else if optBelowOne maxPerDay then .error .maxBelowOne
        else if minAboveMaxB minPerDay maxPerDay then
          .error (.minAboveMax (minPerDay.getD 0) (maxPerDay.getD 0))
        else
          organizeScenario numDays coordinates prefs isolated optimize startingPoint
            minPerDay maxPerDay dwpE kmU kmC setE dist

deriving instance DecidableEq for Except

/-- Message part of the tool result: either one error payload or the success
message with the day buckets. -/
inductive ToolMsg where
  | errMsg (e : OrgError)
  | okMsg (days : List (Int × List String))
deriving DecidableEq

/-- State update dict returned by the tool: error branches update only the
message list, the success branch also writes the three organization fields. -/
structure ToolUpdate where
  clusters : Option (List Int)
  organizedDays : Option (List (Int × List String))
  hasFlexibleAttractions : Option Bool
  msg : ToolMsg
deriving DecidableEq

/-- Wrapper mirroring the Command(update=...) construction of the tool. -/
def organizeTool (numDays : Int) (coordinates : CoordMap) (allCoordsOk : Bool)
    (prefs isolated : List (String × Int)) (optimize : Bool) (startingPoint : Option String)
    (minPerDay maxPerDay : Option Int) (dwpE : List Int → List Int)
    (kmU : List Coord → Nat → List Nat × List Coord)
    (kmC : List Coord → Nat → Int → Int → List Nat × List Coord)
    (setE : List String → List String) (dist : Coord → Coord → ℚ) : ToolUpdate :=
  match organizeE numDays coordinates allCoordsOk prefs isolated optimize startingPoint
      minPerDay maxPerDay dwpE kmU kmC setE dist with
  | .error e => ⟨none, none, none, .errMsg e⟩
  | .ok p => ⟨some p.clusters, some p.organizedDays, some p.hasFlexibleAttractions,
      .okMsg p.organizedDays⟩

/-- Organization-related fields of the graph state. -/
structure GState where
  clusters : List Int
  organizedDays : List (Int × List String)
  hasFlexibleAttractions : Bool
deriving DecidableEq

/-- Application of a Command update to the graph state: a field changes
exactly when the update dict carries it. -/
def applyUpdate (s : GState) (u : ToolUpdate) : GState :=
  ⟨u.clusters.getD s.clusters, u.organizedDays.getD s.organizedDays,
   u.hasFlexibleAttractions.getD s.hasFlexibleAttractions⟩

/-- Image record of the structured research output. -/
structure ImageInfo where
  id : String
  urlRegular : String
  caption : String
deriving DecidableEq

/-- Ticket record of the structured research output. -/
structure TicketInfo where
  title : String
  content : String
  url : String
deriving DecidableEq

/-- Link record of the structured research output. -/
structure LinkInfo where
  title : String
  url : String
deriving DecidableEq

/-- Per-attraction research record of state.py, estimated cost as a
rational. -/
structure AttractionResearchResult where
  name : String
  dayNumber : Int
  description : String
  images : List ImageInfo
  ticketInfo : List TicketInfo
  usefulLinks : List LinkInfo
  estimatedCost : ℚ
  currency : String
deriving DecidableEq

/-- Outcome of one agent invocation inside the retry loop of
attraction_researcher_node: a structured success, a
StructuredOutputValidationError, an anthropic RateLimitError, or any other
exception. -/
inductive AttemptOutcome where
  | success (attractions : List AttractionResearchResult)
  | validationFailure
  | rateLimit
  | unexpectedError

/-- Minimal fallback of the researcher node: one record per input attraction
name with empty enrichment fields, zero cost and currency EUR. -/
def fallbackRecords (attractions : List String) (dayNumber : Int) :
    List AttractionResearchResult :=
  attractions.map (fun a => ⟨a, dayNumber, "", [], [], [], 0, "EUR"⟩)

/-- Retry loop of attraction_researcher_node over a stream of attempt
outcomes indexed by the retry counter. The fuel argument bounds the
iterations; every control path of the source returns before the while
condition can fail, so the base case is unreachable from the entry point. -/
def researchLoop (attractions : List String) (dayNumber : Int) (maxRetries : Nat)
    (outcome : Nat → AttemptOutcome) : Nat → Nat → List AttractionResearchResult
  | _, 0 => []
  | retry, fuel + 1 =>
    match outcome retry with
    | .success recs => recs
    | .unexpectedError => fallbackRecords attractions dayNumber
    | .validationFailure =>
      if maxRetries < retry + 1 then fallbackRecords attractions dayNumber
      else researchLoop attractions dayNumber maxRetries outcome (retry + 1) fuel
    | .rateLimit =>
      if maxRetries < retry + 1 then fallbackRecords attractions dayNumber
      else researchLoop attractions dayNumber maxRetries outcome (retry + 1) fuel

/-- Embedding of attraction_researcher_node: the retry loop entered with a
zero counter and enough fuel for the max_retries plus one attempts the
source can make. -/
def attractionResearcherNode (attractions : List String) (dayNumber : Int)
    (maxRetries : Nat) (outcome : Nat → AttemptOutcome) :
    List AttractionResearchResult :=
  researchLoop attractions dayNumber maxRetries outcome 0 (maxRetries + 1)

/-- Result of update_itinerary_organization: the three error messages or the
accepted update carrying the recalculated clusters and the new grouping.
Error payloads are converted from Python sets; their internal order is not
fixed by the source, here key order is used for missing names and
first-occurrence order for unknown names. -/
inductive UpdResult where
  | errNoCoordinates
  | errMissing (names : List String)
  | errUnknown (names : List String)
  | ok (clusters : List Int) (organizedDays : List (Int × List String))
deriving DecidableEq

/-- Zero-based cluster index a name receives from the replacement grouping:
the write loop walks the days in order, so the last day listing the name
wins; names on no day keep the zero of np.zeros. -/
def lastDayIndexOf (newDays : List (Int × List String)) (n : String) : Int :=
  ((newDays.filter (fun p => p.2.contains n)).getLast?.map (fun p => p.1 - 1)).getD 0

/-- Embedding of update_itinerary_organization over a replacement grouping
whose day_N keys are parsed into integers. -/
def updateItineraryOrganization (coordinates : CoordMap)
    (newDays : List (Int × List String)) : UpdResult :=
  if coordinates = [] then .errNoCoordinates
  else if (akeys coordinates).filter (fun n => !((bjoin newDays).contains n)) ≠ [] then
    .errMissing ((akeys coordinates).filter (fun n => !((bjoin newDays).contains n)))
  else if (bjoin newDays).filter (fun m => !((akeys coordinates).contains m)) ≠ [] then
    .errUnknown (((bjoin newDays).filter (fun m => !((akeys coordinates).contains m))).dedup)
  else
    .ok ((akeys coordinates).map (fun n => lastDayIndexOf newDays n)) newDays

/-- Responses accepted as approval after lowercasing and stripping. -/
def approvedResponses : List String :=
  ["yes", "ok", "okay", "approved", "approve", "sim", "si", "oui", "y"]

/-- ASCII model of the Python str.lower call. -/
def pyLower (s : String) : String := String.mk (s.data.map Char.toLower)

/-- Whitespace stripped by the Python str.strip call. -/
def isStripSpace (c : Char) : Bool := c == ' ' || c == '\t' || c == '\n' || c == '\r'

/-- Model of the Python str.strip call: drop whitespace from both ends. -/
def pyStrip (s : String) : String :=
  String.mk (((s.data.dropWhile isStripSpace).reverse.dropWhile isStripSpace).reverse)

/-- Update produced by request_itinerary_approval after the interrupt
returned the user response; the error branch fires before the interrupt when
no organization is in the state. -/
structure ApprovalUpdate where
  itineraryApproved : Option Bool
  userFeedback : Option String
  errorNoDays : Bool
deriving DecidableEq

/-- Embedding of request_itinerary_approval applied to the organized days of
the state and the response returned by the interrupt. -/
def requestItineraryApproval (organizedDays : List (Int × List String))
    (response : String) : ApprovalUpdate :=
  if organizedDays = [] then ⟨none, none, true⟩
  else if pyStrip (pyLower response) ∈ approvedResponses then ⟨some true, none, false⟩
  else ⟨some false, some response, false⟩

/-- Identity set-enumeration: insertion order. -/
def idE : List String → List String := fun l => l

/-- Reversed set-enumeration, one of the orders a hash set may present. -/
def revE : List String → List String := fun l => l.reverse

/-- Degenerate distance instance used by witnesses whose claims do not
depend on geometry. -/
def zeroDist : Coord → Coord → ℚ := fun _ _ => 0

/-- Round-robin stand-in for a k-means fit: label i mod k, centers at the
origin. -/
def kmTrivU : List Coord → Nat → List Nat × List Coord :=
  fun cs k => (cs.enum.map (fun p => p.1 % k), (List.range k).map (fun _ => ((0 : ℚ), (0 : ℚ))))

/-- Round-robin stand-in for a size-constrained k-means fit. -/
def kmTrivC : List Coord → Nat → Int → Int → List Nat × List Coord :=
  fun cs k _ _ => kmTrivU cs k

/-- Conjunction of every guard organize_attractions_by_days evaluates before
reaching the size-constraint handling, in source order. -/
def preChecksPass (numDays : Int) (coordinates : CoordMap) (allCoordsOk : Bool)
    (prefs isolated : List (String × Int)) (minPerDay maxPerDay : Option Int)
    (dwpE : List Int → List Int) : Prop :=
  allCoordsOk = true ∧ coordinates ≠ [] ∧
  validateDayAssignments prefs numDays = none ∧
  validateDayAssignments isolated numDays = none ∧
  optBelowOne minPerDay = false ∧ optBelowOne maxPerDay = false ∧
  minAboveMaxB minPerDay maxPerDay = false ∧
  (akeys (pyMerge prefs isolated)).filter (fun n => !(akeys coordinates).contains n) = [] ∧
  (prefAOf coordinates prefs isolated).filter
    (fun p => (reservedOf coordinates isolated).contains p.2) = [] ∧
  daysForFlexOf dwpE numDays coordinates prefs isolated ≠ []

/-- Distance given by a finite symmetric table, zero on the diagonal and a
default of two elsewhere; used to realize concrete distance patterns. -/
def tableDist (pairs : List ((Coord × Coord) × ℚ)) (a b : Coord) : ℚ :=
  if a = b then 0
  else ((alookup pairs (a, b)).orElse (fun _ => alookup pairs (b, a))).getD 2

/-- Distance table with a tie: the two unit points are both at distance one
from the origin. -/
def distW : Coord → Coord → ℚ :=
  tableDist [((((0 : ℚ), (0 : ℚ)), ((1 : ℚ), (0 : ℚ))), 1),
    ((((0 : ℚ), (0 : ℚ)), ((0 : ℚ), (1 : ℚ))), 1)]

/-- Distance table with pairwise distinct distances from every point. -/
def distV : Coord → Coord → ℚ :=
  tableDist [((((0 : ℚ), (0 : ℚ)), ((1 : ℚ), (0 : ℚ))), 1),
    ((((0 : ℚ), (0 : ℚ)), ((2 : ℚ), (0 : ℚ))), 4),
    ((((1 : ℚ), (0 : ℚ)), ((2 : ℚ), (0 : ℚ))), 9)]

theorem akeys_nil {α β : Type} : akeys ([] : List (α × β)) = [] := rfl

theorem akeys_cons {α β : Type} (p : α × β) (t : List (α × β)) :
    akeys (p :: t) = p.1 :: akeys t := rfl

theorem alookup_eq_some_mem {α β : Type} [DecidableEq α] {l : List (α × β)} {k : α} {v : β}
    (h : alookup l k = some v) : (k, v) ∈ l := by
  induction l with
  | nil => simp [alookup] at h
  | cons p t ih =>
    rw [alookup] at h
    by_cases hc : p.1 = k
    · rw [if_pos hc] at h
      obtain ⟨p1, p2⟩ := p
      simp only [Option.some.injEq] at h
      simp only [] at hc
      subst hc; subst h
      exact List.mem_cons_self _ _
    · rw [if_neg hc] at h
      exact List.mem_cons_of_mem _ (ih h)

theorem alookup_eq_none {α β : Type} [DecidableEq α] {l : List (α × β)} {k : α} :
    alookup l k = none ↔ k ∉ akeys l := by
  induction l with
  | nil => simp [alookup, akeys]
  | cons p t ih =>
    rw [alookup, akeys_cons]
    by_cases hc : p.1 = k
    · simp [hc]
    · simp only [if_neg hc, ih, List.mem_cons]
      constructor
      · intro h hk
        rcases hk with hk | hk
        · exact hc hk.symm
        · exact h hk
      · intro h hk
        exact h (Or.inr hk)

theorem alookup_isSome {α β : Type} [DecidableEq α] {l : List (α × β)} {k : α} :
    (alookup l k).isSome = true ↔ k ∈ akeys l := by
  rw [Option.isSome_iff_ne_none]
  constructor
  · intro h
    by_contra hk
    exact h (alookup_eq_none.mpr hk)
  · intro h hnone
    exact alookup_eq_none.mp hnone h

theorem mem_akeys_of_mem {α β : Type} {l : List (α × β)} {p : α × β} (h : p ∈ l) :
    p.1 ∈ akeys l := List.mem_map_of_mem Prod.fst h

theorem pyMin_nil {α : Type} (f : α → ℚ) (a : α) : pyMin f a [] = a := rfl

theorem pyMin_cons {α : Type} (f : α → ℚ) (a x : α) (l : List α) :
    pyMin f a (x :: l) = pyMin f (if f x < f a then x else a) l := rfl

theorem pyMin_mem {α : Type} (f : α → ℚ) (a : α) (l : List α) : pyMin f a l ∈ a :: l := by
  induction l generalizing a with
  | nil => simp [pyMin]
  | cons x t ih =>
    rw [pyMin_cons]
    rcases List.mem_cons.mp (ih (if f x < f a then x else a)) with h2 | h2
    · rw [h2]
      by_cases hc : f x < f a
      · simp [hc]
      · simp [hc]
    · exact List.mem_cons_of_mem _ (List.mem_cons_of_mem _ h2)

theorem pyMin_le {α : Type} (f : α → ℚ) (a : α) (l : List α) :
    ∀ x ∈ a :: l, f (pyMin f a l) ≤ f x := by
  induction l generalizing a with
  | nil =>
    intro x hx
    rcases List.mem_singleton.mp hx with rfl
    simp [pyMin]
  | cons y t ih =>
    intro x hx
    rw [pyMin_cons]
    have hba : f (if f y < f a then y else a) ≤ f a := by
      by_cases hc : f y < f a
      · rw [if_pos hc]; exact le_of_lt hc
      · rw [if_neg hc]
    have hby : f (if f y < f a then y else a) ≤ f y := by
      by_cases hc : f y < f a
      · rw [if_pos hc]
      · rw [if_neg hc]; exact le_of_not_lt hc
    have hminb : f (pyMin f (if f y < f a then y else a) t) ≤ f (if f y < f a then y else a) :=
      ih (if f y < f a then y else a) _ (List.mem_cons_self _ _)
    rcases List.mem_cons.mp hx with rfl | hx2
    · exact le_trans hminb hba
    · rcases List.mem_cons.mp hx2 with rfl | hx3
      · exact le_trans hminb hby
      · exact ih (if f y < f a then y else a) x (List.mem_cons_of_mem _ hx3)

theorem pyMin_eq_of_perm {α : Type} (f : α → ℚ) (a : α) (l : List α) (b : α) (m : List α)
    (hp : (a :: l).Perm (b :: m))
    (hinj : ∀ x ∈ a :: l, ∀ y ∈ a :: l, x ≠ y → f x ≠ f y) :
    pyMin f a l = pyMin f b m := by
  have h1 := pyMin_mem f a l
  have h2 := pyMin_mem f b m
  have h2m : pyMin f b m ∈ a :: l := hp.mem_iff.mpr h2
  by_contra hne
  have hle1 := pyMin_le f a l (pyMin f b m) h2m
  have hle2 := pyMin_le f b m (pyMin f a l) (hp.mem_iff.mp h1)
  exact hinj _ h1 _ h2m hne (le_antisymm hle1 hle2)

theorem nnLoopF_perm (dist : Coord → Coord → ℚ) (coordinates : CoordMap) :
    ∀ (fuel : Nat) (l : List String) (cur : String), l.length ≤ fuel →
      (nnLoopF dist coordinates fuel cur l).Perm l := by
  intro fuel
  induction fuel with
  | zero =>
    intro l cur h
    have hl : l = [] := List.eq_nil_of_length_eq_zero (Nat.le_zero.mp h)
    subst hl
    simp [nnLoopF]
  | succ n ih =>
    intro l cur h
    cases l with
    | nil => simp [nnLoopF]
    | cons r rs =>
      rw [nnLoopF]
      have hm : pyMin (fun a => dist (coordOf coordinates a) (coordOf coordinates cur)) r rs
          ∈ r :: rs := pyMin_mem _ r rs
      have hlen : ((r :: rs).erase
          (pyMin (fun a => dist (coordOf coordinates a) (coordOf coordinates cur)) r rs)).length
          ≤ n := by
        rw [List.length_erase_of_mem hm]
        simpa using Nat.le_of_succ_le_succ h
      exact ((ih _ _ hlen).cons _).trans (List.perm_cons_erase hm).symm

theorem startRouteFrom_perm (setE : List String → List String) (dist : Coord → Coord → ℚ)
    (coordinates : CoordMap) (attractions : List String) (first : String)
    (hE : (setE (attractions.filter (hasCoord coordinates))).Perm
      (attractions.filter (hasCoord coordinates)))
    (hf : first ∈ attractions.filter (hasCoord coordinates)) :
    (startRouteFrom setE dist coordinates (attractions.filter (hasCoord coordinates))
      (attractions.filter (fun a => !hasCoord coordinates a)) first).Perm attractions := by
  unfold startRouteFrom
  have h1 : (nnLoopF dist coordinates
      ((setE (attractions.filter (hasCoord coordinates))).erase first).length first
      ((setE (attractions.filter (hasCoord coordinates))).erase first)).Perm
      ((setE (attractions.filter (hasCoord coordinates))).erase first) :=
    nnLoopF_perm dist coordinates _ _ _ (le_refl _)
  have h2 : ((setE (attractions.filter (hasCoord coordinates))).erase first).Perm
      ((attractions.filter (hasCoord coordinates)).erase first) := hE.erase first
  have h3 : (first :: nnLoopF dist coordinates
      ((setE (attractions.filter (hasCoord coordinates))).erase first).length first
      ((setE (attractions.filter (hasCoord coordinates))).erase first)).Perm
      (attractions.filter (hasCoord coordinates)) :=
    ((h1.trans h2).cons first).trans (List.perm_cons_erase hf).symm
  have h4 := h3.append_right (attractions.filter (fun a => !hasCoord coordinates a))
  exact h4.trans (List.filter_append_perm (hasCoord coordinates) attractions)

theorem orderNN_perm (setE : List String → List String) (dist : Coord → Coord → ℚ)
    (coordinates : CoordMap) (attractions : List String) (startingPoint : Option String)
    (hE : (setE (attractions.filter (hasCoord coordinates))).Perm
      (attractions.filter (hasCoord coordinates))) :
    (orderNN setE dist coordinates attractions startingPoint).Perm attractions := by
  unfold orderNN
  split
  · exact List.Perm.refl _
  · split
    · exact List.Perm.refl _
    · split
      · next s hs =>
        apply startRouteFrom_perm _ _ _ _ _ hE
        cases startingPoint with
        | none => simp [startValid] at hs
        | some s0 =>
          simp only [startValid] at hs
          by_cases hc : s0 ≠ "" ∧ s0 ∈ attractions.filter (hasCoord coordinates)
          · rw [if_pos hc] at hs
            cases hs
            exact hc.2
          · rw [if_neg hc] at hs
            cases hs
      · split
        · next a t c hawc hcent =>
          apply startRouteFrom_perm _ _ _ _ _ hE
          rw [hawc]
          exact pyMin_mem _ a t
        · exact List.Perm.refl _

theorem orderNN_mem (setE : List String → List String) (dist : Coord → Coord → ℚ)
    (coordinates : CoordMap) (attractions : List String) (startingPoint : Option String)
    (hE : (setE (attractions.filter (hasCoord coordinates))).Perm
      (attractions.filter (hasCoord coordinates))) (n : String) :
    n ∈ orderNN setE dist coordinates attractions startingPoint ↔ n ∈ attractions :=
  (orderNN_perm setE dist coordinates attractions startingPoint hE).mem_iff

theorem contains_eq_true {α : Type} [BEq α] [LawfulBEq α] {l : List α} {a : α} :
    l.contains a = true ↔ a ∈ l := List.elem_iff

theorem contains_eq_false {α : Type} [BEq α] [LawfulBEq α] {l : List α} {a : α} :
    l.contains a = false ↔ a ∉ l := by
  rw [Bool.eq_false_iff]
  exact not_congr contains_eq_true

theorem akeys_pyMerge (a b : List (String × Int)) :
    akeys (pyMerge a b) = akeys a ++ akeys (b.filter (fun p => !(akeys a).contains p.1)) := by
  unfold pyMerge akeys
  rw [List.map_append, List.map_map]
  rfl

theorem subset_akeys_pyMerge_left (a b : List (String × Int)) :
    ∀ k ∈ akeys a, k ∈ akeys (pyMerge a b) := by
  intro k hk
  rw [akeys_pyMerge]
  exact List.mem_append_left _ hk

theorem subset_akeys_pyMerge_right (a b : List (String × Int)) :
    ∀ k ∈ akeys b, k ∈ akeys (pyMerge a b) := by
  intro k hk
  rw [akeys_pyMerge]
  by_cases hka : k ∈ akeys a
  · exact List.mem_append_left _ hka
  · apply List.mem_append_right
    unfold akeys at hk ⊢
    rcases List.mem_map.mp hk with ⟨p, hp, rfl⟩
    apply List.mem_map_of_mem
    rw [List.mem_filter]
    refine ⟨hp, ?_⟩
    rw [Bool.not_eq_true', contains_eq_false]
    simpa [akeys] using hka

theorem alookup_of_mem_nodup {α β : Type} [DecidableEq α] {b : List (α × β)} {n : α} {d : β}
    (hbk : (akeys b).Nodup) (hmem : (n, d) ∈ b) : alookup b n = some d := by
  induction b with
  | nil => cases hmem
  | cons q t ih =>
    rw [alookup]
    rcases List.mem_cons.mp hmem with rfl | hmem2
    · rw [if_pos rfl]
    · rw [akeys_cons] at hbk
      have hq : q.1 ≠ n := by
        intro hqn
        exact (List.nodup_cons.mp hbk).1 (hqn ▸ mem_akeys_of_mem hmem2)
      rw [if_neg hq]
      exact ih (List.nodup_cons.mp hbk).2 hmem2

theorem mem_pyMerge {a b : List (String × Int)} {n : String} {d : Int}
    (hbk : (akeys b).Nodup) (h : (n, d) ∈ pyMerge a b) :
    alookup b n = some d ∨ (alookup b n = none ∧ (n, d) ∈ a) := by
  unfold pyMerge at h
  rcases List.mem_append.mp h with h1 | h1
  · rcases List.mem_map.mp h1 with ⟨p, hp, heq⟩
    rw [Prod.mk.injEq] at heq
    obtain ⟨rfl, hd⟩ := heq
    cases hl : alookup b p.1 with
    | some v =>
      left
      rw [hl] at hd
      simp only [Option.getD_some] at hd
      rw [hd]
    | none =>
      right
      rw [hl] at hd
      simp only [Option.getD_none] at hd
      refine ⟨rfl, ?_⟩
      rw [← hd]
      simpa using hp
  · rcases List.mem_filter.mp h1 with ⟨hmem, _⟩
    exact Or.inl (alookup_of_mem_nodup hbk hmem)

theorem akeys_pyMerge_nodup {a b : List (String × Int)}
    (ha : (akeys a).Nodup) (hb : (akeys b).Nodup) : (akeys (pyMerge a b)).Nodup := by
  rw [akeys_pyMerge]
  have hsub : (akeys (b.filter (fun p => !(akeys a).contains p.1))).Sublist (akeys b) :=
    List.Sublist.map Prod.fst (List.filter_sublist b)
  refine List.Nodup.append ha (hb.sublist hsub) ?_
  intro k hk1 hk2
  unfold akeys at hk2
  rcases List.mem_map.mp hk2 with ⟨p, hp, rfl⟩
  rcases List.mem_filter.mp hp with ⟨_, hcond⟩
  rw [Bool.not_eq_true', contains_eq_false] at hcond
  exact hcond hk1

theorem akeys_addToBucket (acc : List (Int × List String)) (d : Int) (n : String) :
    akeys (addToBucket acc d n) =
      if d ∈ akeys acc then akeys acc else akeys acc ++ [d] := by
  unfold addToBucket
  by_cases hc : acc.any (fun p => p.1 == d)
  · rw [if_pos hc]
    have hd : d ∈ akeys acc := by
      rcases List.any_eq_true.mp hc with ⟨p, hp, hpd⟩
      rw [beq_iff_eq] at hpd
      exact hpd ▸ mem_akeys_of_mem hp
    rw [if_pos hd]
    unfold akeys
    rw [List.map_map]
    apply List.map_congr_left
    intro p hp
    simp only [Function.comp]
    split <;> rfl
  · rw [if_neg hc]
    have hd : d ∉ akeys acc := by
      intro hmem
      apply hc
      unfold akeys at hmem
      rcases List.mem_map.mp hmem with ⟨p, hp, rfl⟩
      exact List.any_eq_true.mpr ⟨p, hp, beq_self_eq_true _⟩
    rw [if_neg hd]
    unfold akeys
    rw [List.map_append]
    rfl

theorem akeys_addToBucket_nodup {acc : List (Int × List String)} {d : Int} {n : String}
    (h : (akeys acc).Nodup) : (akeys (addToBucket acc d n)).Nodup := by
  rw [akeys_addToBucket]
  split
  · exact h
  · next hd =>
    rw [List.nodup_append]
    exact ⟨h, List.nodup_singleton d, fun x hx hx2 => hd (List.mem_singleton.mp hx2 ▸ hx)⟩

theorem bjoin_update {t : List (Int × List String)} {d : Int} (n : String)
    (hnd : (akeys t).Nodup) (hd : d ∈ akeys t) :
    (bjoin (t.map (fun p => if p.1 = d then (p.1, p.2 ++ [n]) else p))).Perm
      (bjoin t ++ [n]) := by
  induction t with
  | nil => cases hd
  | cons q t ih =>
    by_cases hqd : q.1 = d
    · have htd : d ∉ akeys t := by
        rw [akeys_cons] at hnd
        exact hqd ▸ (List.nodup_cons.mp hnd).1
      have htmap : t.map (fun p => if p.1 = d then (p.1, p.2 ++ [n]) else p) = t := by
        conv_rhs => rw [← List.map_id t]
        apply List.map_congr_left
        intro p hp
        have hneq : ¬ p.1 = d := by
          intro h
          exact htd (h ▸ mem_akeys_of_mem hp)
        simp only [id]
        exact if_neg hneq
      rw [List.map_cons, if_pos hqd, htmap]
      unfold bjoin
      simp only [List.map_cons, List.flatten_cons]
      rw [List.append_assoc, List.append_assoc]
      exact List.Perm.append_left q.2 List.perm_append_comm
    · have hdt : d ∈ akeys t := by
        rw [akeys_cons] at hd
        rcases List.mem_cons.mp hd with h | h
        · exact absurd h.symm hqd
        · exact h
      rw [akeys_cons] at hnd
      have hper := ih (List.nodup_cons.mp hnd).2 hdt
      rw [List.map_cons, if_neg hqd]
      unfold bjoin at hper ⊢
      simp only [List.map_cons, List.flatten_cons]
      rw [List.append_assoc]
      exact List.Perm.append_left q.2 hper

theorem bjoin_addToBucket {acc : List (Int × List String)} (hnd : (akeys acc).Nodup)
    (d : Int) (n : String) :
    (bjoin (addToBucket acc d n)).Perm (bjoin acc ++ [n]) := by
  unfold addToBucket
  by_cases hc : acc.any (fun p => p.1 == d)
  · rw [if_pos hc]
    have hd : d ∈ akeys acc := by
      rcases List.any_eq_true.mp hc with ⟨p, hp, hpd⟩
      rw [beq_iff_eq] at hpd
      exact hpd ▸ mem_akeys_of_mem hp
    exact bjoin_update n hnd hd
  · rw [if_neg hc]
    unfold bjoin
    rw [List.map_append, List.flatten_append]
    simp

theorem mem_addToBucket_snd {acc : List (Int × List String)} {d : Int} {n : String}
    {P : String → Int → Prop}
    (hacc : ∀ q ∈ acc, ∀ m ∈ q.2, P m q.1) (hn : P n d) :
    ∀ q ∈ addToBucket acc d n, ∀ m ∈ q.2, P m q.1 := by
  intro q hq m hm
  unfold addToBucket at hq
  split at hq
  · rcases List.mem_map.mp hq with ⟨p, hp, rfl⟩
    by_cases hpd : p.1 = d
    · rw [if_pos hpd] at hm ⊢
      simp only [] at hm ⊢
      rcases List.mem_append.mp hm with hm1 | hm1
      · exact hacc p hp m hm1
      · rw [List.mem_singleton.mp hm1, hpd]
        exact hn
    · rw [if_neg hpd] at hm ⊢
      exact hacc p hp m hm
  · rcases List.mem_append.mp hq with hq1 | hq1
    · exact hacc q hq1 m hm
    · rw [List.mem_singleton.mp hq1] at hm ⊢
      rw [List.mem_singleton.mp hm]
      exact hn

theorem mem_addToBucket_fst {acc : List (Int × List String)} {d : Int} {n : String}
    {Q : Int → Prop}
    (hacc : ∀ q ∈ acc, Q q.1) (hd : Q d) :
    ∀ q ∈ addToBucket acc d n, Q q.1 := by
  intro q hq
  unfold addToBucket at hq
  split at hq
  · rcases List.mem_map.mp hq with ⟨p, hp, rfl⟩
    by_cases hpd : p.1 = d
    · rw [if_pos hpd]
      exact hacc p hp
    · rw [if_neg hpd]
      exact hacc p hp
  · rcases List.mem_append.mp hq with hq1 | hq1
    · exact hacc q hq1
    · rw [List.mem_singleton.mp hq1]
      exact hd

theorem groupFold_nodup :
    ∀ (l : List (String × Int)) (acc : List (Int × List String)),
      (akeys acc).Nodup →
      (akeys (l.foldl (fun acc p => addToBucket acc p.2 p.1) acc)).Nodup := by
  intro l
  induction l with
  | nil => intro acc h; exact h
  | cons p t ih =>
    intro acc h
    rw [List.foldl_cons]
    exact ih _ (akeys_addToBucket_nodup h)

theorem groupFold_join :
    ∀ (l : List (String × Int)) (acc : List (Int × List String)),
      (akeys acc).Nodup →
      (bjoin (l.foldl (fun acc p => addToBucket acc p.2 p.1) acc)).Perm
        (bjoin acc ++ l.map Prod.fst) := by
  intro l
  induction l with
  | nil => intro acc h; simp
  | cons p t ih =>
    intro acc h
    rw [List.foldl_cons]
    have h1 := ih (addToBucket acc p.2 p.1) (akeys_addToBucket_nodup h)
    have h2 := (bjoin_addToBucket h p.2 p.1).append_right (t.map Prod.fst)
    refine h1.trans (h2.trans ?_)
    rw [List.append_assoc]
    exact List.Perm.refl _

theorem groupFold_mem_snd {P : String → Int → Prop} :
    ∀ (l : List (String × Int)) (acc : List (Int × List String)),
      (∀ q ∈ acc, ∀ m ∈ q.2, P m q.1) → (∀ p ∈ l, P p.1 p.2) →
      ∀ q ∈ l.foldl (fun acc p => addToBucket acc p.2 p.1) acc, ∀ m ∈ q.2, P m q.1 := by
  intro l
  induction l with
  | nil => intro acc hacc _ q hq; exact hacc q hq
  | cons p t ih =>
    intro acc hacc hl q hq
    rw [List.foldl_cons] at hq
    exact ih _ (mem_addToBucket_snd hacc (hl p (List.mem_cons_self _ _)))
      (fun r hr => hl r (List.mem_cons_of_mem _ hr)) q hq

theorem groupFold_mem_fst {Q : Int → Prop} :
    ∀ (l : List (String × Int)) (acc : List (Int × List String)),
      (∀ q ∈ acc, Q q.1) → (∀ p ∈ l, Q p.2) →
      ∀ q ∈ l.foldl (fun acc p => addToBucket acc p.2 p.1) acc, Q q.1 := by
  intro l
  induction l with
  | nil => intro acc hacc _ q hq; exact hacc q hq
  | cons p t ih =>
    intro acc hacc hl q hq
    rw [List.foldl_cons] at hq
    exact ih _ (mem_addToBucket_fst hacc (hl p (List.mem_cons_self _ _)))
      (fun r hr => hl r (List.mem_cons_of_mem _ hr)) q hq

theorem groupByDay_join_perm (asg : List (String × Int)) :
    (bjoin (groupByDay asg)).Perm (asg.map Prod.fst) := by
  have h := groupFold_join asg [] (by simp [akeys])
  simpa [groupByDay, bjoin] using h

theorem groupByDay_mem_snd (asg : List (String × Int)) :
    ∀ q ∈ groupByDay asg, ∀ m ∈ q.2, (m, q.1) ∈ asg :=
  @groupFold_mem_snd (fun m d => (m, d) ∈ asg) asg []
    (by intro q hq; cases hq) (fun p hp => by simpa using hp)

theorem groupByDay_mem_fst (asg : List (String × Int)) :
    ∀ q ∈ groupByDay asg, q.1 ∈ asg.map Prod.snd :=
  @groupFold_mem_fst (fun d => d ∈ asg.map Prod.snd) asg []
    (by intro q hq; cases hq) (fun p hp => List.mem_map_of_mem Prod.snd hp)

theorem bjoin_map_orderNN (setE : List String → List String) (dist : Coord → Coord → ℚ)
    (coordinates : CoordMap) (sp : Option String) (acc : List (Int × List String))
    (hE : ∀ l : List String, (setE l).Perm l) :
    (bjoin (acc.map (fun p => (p.1, orderNN setE dist coordinates p.2 (dayStart sp p.2))))).Perm
      (bjoin acc) := by
  induction acc with
  | nil => exact List.Perm.refl _
  | cons q t ih =>
    unfold bjoin at ih ⊢
    simp only [List.map_cons, List.flatten_cons]
    exact (orderNN_perm setE dist coordinates q.2 (dayStart sp q.2) (hE _)).append ih

theorem buildDays_join_perm (setE : List String → List String) (dist : Coord → Coord → ℚ)
    (coordinates : CoordMap) (asg : List (String × Int)) (sp : Option String) (opt : Bool)
    (hE : ∀ l : List String, (setE l).Perm l) :
    (bjoin (buildDays setE dist coordinates asg sp opt)).Perm (asg.map Prod.fst) := by
  unfold buildDays
  split
  · exact (bjoin_map_orderNN setE dist coordinates sp (groupByDay asg) hE).trans
      (groupByDay_join_perm asg)
  · exact groupByDay_join_perm asg

theorem mem_buildDays_fst (setE : List String → List String) (dist : Coord → Coord → ℚ)
    (coordinates : CoordMap) (asg : List (String × Int)) (sp : Option String) (opt : Bool) :
    ∀ q ∈ buildDays setE dist coordinates asg sp opt, q.1 ∈ asg.map Prod.snd := by
  intro q hq
  unfold buildDays at hq
  split at hq
  · rcases List.mem_map.mp hq with ⟨p, hp, rfl⟩
    exact groupByDay_mem_fst asg p hp
  · exact groupByDay_mem_fst asg q hq

theorem mem_buildDays_snd (setE : List String → List String) (dist : Coord → Coord → ℚ)
    (coordinates : CoordMap) (asg : List (String × Int)) (sp : Option String) (opt : Bool)
    (hE : ∀ l : List String, (setE l).Perm l) :
    ∀ q ∈ buildDays setE dist coordinates asg sp opt, ∀ m ∈ q.2, (m, q.1) ∈ asg := by
  intro q hq m hm
  unfold buildDays at hq
  split at hq
  · rcases List.mem_map.mp hq with ⟨p, hp, rfl⟩
    simp only [] at hm
    have hm2 : m ∈ p.2 :=
      (orderNN_mem setE dist coordinates p.2 (dayStart sp p.2) (hE _) m).mp hm
    exact groupByDay_mem_snd asg p hp m hm2
  · exact groupByDay_mem_snd asg q hq m hm

theorem filter_not_contains_eq_nil {l m : List String} :
    l.filter (fun n => !(m.contains n)) = [] ↔ ∀ n ∈ l, n ∈ m := by
  rw [List.filter_eq_nil_iff]
  constructor
  · intro h n hn
    by_contra hm
    apply h n hn
    rw [Bool.not_eq_true', contains_eq_false]
    exact hm
  · intro h n hn hcon
    rw [Bool.not_eq_true', contains_eq_false] at hcon
    exact hcon (h n hn)

theorem validate_none_bounds {assignments : List (String × Int)} {numDays : Int}
    (h : validateDayAssignments assignments numDays = none) :
    ∀ p ∈ assignments, 1 ≤ p.2 ∧ p.2 ≤ numDays := by
  unfold validateDayAssignments at h
  rw [List.find?_eq_none] at h
  intro p hp
  have h2 := h p hp
  simp only [Bool.or_eq_true, decide_eq_true_eq, not_or] at h2
  omega

theorem mem_dayRange {numDays : Int} {d : Int} :
    d ∈ dayRange numDays ↔ 1 ≤ d ∧ d ≤ numDays := by
  unfold dayRange
  simp only [List.mem_map, List.mem_range]
  constructor
  · rintro ⟨i, hi, rfl⟩
    omega
  · intro h
    exact ⟨(d - 1).toNat, by omega, by omega⟩

theorem isolatedA_eq_of_subset {coordinates : CoordMap} {isolated : List (String × Int)}
    (hsub : ∀ k ∈ akeys isolated, k ∈ akeys coordinates) :
    isolatedAOf coordinates isolated = isolated := by
  unfold isolatedAOf
  rw [List.filter_eq_self]
  intro p hp
  rw [contains_eq_true]
  exact hsub _ (mem_akeys_of_mem hp)

theorem merge_keys_subset_coords {coordinates : CoordMap} {prefs isolated : List (String × Int)}
    (hmiss : (akeys (pyMerge prefs isolated)).filter
      (fun n => !(akeys coordinates).contains n) = []) :
    ∀ k ∈ akeys (pyMerge prefs isolated), k ∈ akeys coordinates :=
  filter_not_contains_eq_nil.mp hmiss

theorem prefs_keys_subset_coords {coordinates : CoordMap} {prefs isolated : List (String × Int)}
    (hmiss : (akeys (pyMerge prefs isolated)).filter
      (fun n => !(akeys coordinates).contains n) = []) :
    ∀ k ∈ akeys prefs, k ∈ akeys coordinates :=
  fun k hk => merge_keys_subset_coords hmiss k (subset_akeys_pyMerge_left prefs isolated k hk)

theorem isolated_keys_subset_coords {coordinates : CoordMap}
    {prefs isolated : List (String × Int)}
    (hmiss : (akeys (pyMerge prefs isolated)).filter
      (fun n => !(akeys coordinates).contains n) = []) :
    ∀ k ∈ akeys isolated, k ∈ akeys coordinates :=
  fun k hk => merge_keys_subset_coords hmiss k (subset_akeys_pyMerge_right prefs isolated k hk)

theorem mem_flexible_of_lookups_none {coordinates : CoordMap}
    {prefs isolated : List (String × Int)} {n : String}
    (hn : n ∈ akeys coordinates)
    (hp : alookup (prefAOf coordinates prefs isolated) n = none)
    (hi : alookup (isolatedAOf coordinates isolated) n = none) :
    n ∈ flexibleOf coordinates prefs isolated := by
  unfold flexibleOf
  rw [List.mem_filter]
  refine ⟨hn, ?_⟩
  rw [Bool.and_eq_true, Bool.not_eq_true', Bool.not_eq_true', contains_eq_false,
    contains_eq_false]
  exact ⟨alookup_eq_none.mp hi, alookup_eq_none.mp hp⟩

theorem prefA_not_reserved {coordinates : CoordMap} {prefs isolated : List (String × Int)}
    (hres : (prefAOf coordinates prefs isolated).filter
      (fun p => (reservedOf coordinates isolated).contains p.2) = []) :
    ∀ p ∈ prefAOf coordinates prefs isolated, p.2 ∉ reservedOf coordinates isolated := by
  rw [List.filter_eq_nil_iff] at hres
  intro p hp hmem
  exact hres p hp (contains_eq_true.mpr hmem)

theorem headD_mem {l : List Int} (h : l ≠ []) (d : Int) : l.headD d ∈ l := by
  cases l with
  | nil => exact absurd rfl h
  | cons a t => exact List.mem_cons_self _ _

theorem mem_prefCentroids {coordinates : CoordMap} {prefA : List (String × Int)}
    {dwpList : List Int} :
    ∀ q ∈ prefCentroidsOf coordinates prefA dwpList, q.1 ∈ dwpList := by
  intro q hq
  unfold prefCentroidsOf at hq
  rcases List.mem_filterMap.mp hq with ⟨day, hday, hopt⟩
  cases hc : calculateCentroid coordinates ((prefA.filter (fun p => p.2 == day)).map Prod.fst)
    with
  | none => rw [hc] at hopt; cases hopt
  | some c =>
    rw [hc] at hopt
    simp only [Option.map_some', Option.some.injEq] at hopt
    rw [← hopt]
    exact hday

theorem pass1_values {dist : Coord → Coord → ℚ} {centers : List Coord} {nClusters : Nat}
    {prefCentroids : List (Int × Coord)} {P : Int → Prop}
    (hpc : ∀ q ∈ prefCentroids, P q.1) :
    ∀ q ∈ (pass1 dist centers nClusters prefCentroids).1, P q.2 := by
  unfold pass1
  suffices h : ∀ (l : List (Int × Coord)) (st : List (Nat × Int) × List Int),
      (∀ q ∈ l, P q.1) → (∀ q ∈ st.1, P q.2) →
      ∀ q ∈ (l.foldl
        (fun st dc =>
          match pyMinO (fun cid => dist dc.2 (centers.getD cid ((0 : ℚ), (0 : ℚ))))
              ((List.range nClusters).filter (fun cid => !(akeys st.1).contains cid)) with
          | some best => (st.1 ++ [(best, dc.1)], st.2 ++ [dc.1])
          | none => st) st).1, P q.2 by
    exact h prefCentroids ([], []) hpc (by intro q hq; cases hq)
  intro l
  induction l with
  | nil => intro st _ hst q hq; exact hst q hq
  | cons dc t ih =>
    intro st hl hst q hq
    rw [List.foldl_cons] at hq
    refine ih _ (fun r hr => hl r (List.mem_cons_of_mem _ hr)) ?_ q hq
    cases hmin : pyMinO (fun cid => dist dc.2 (centers.getD cid ((0 : ℚ), (0 : ℚ))))
        ((List.range nClusters).filter (fun cid => !(akeys st.1).contains cid)) with
    | none => simp only [hmin]; exact hst
    | some best =>
      simp only [hmin]
      intro r hr
      rcases List.mem_append.mp hr with h1 | h1
      · exact hst r h1
      · rw [List.mem_singleton.mp h1]
        exact hl dc (List.mem_cons_self _ _)

theorem pass2_values {nClusters : Nat} {freeDays daysForFlex : List Int}
    {P : Int → Prop}
    (hfree : ∀ d ∈ freeDays, P d) (hdff : ∀ d ∈ daysForFlex, P d) :
    ∀ (st : List (Nat × Int) × List Int), (∀ q ∈ st.1, P q.2) →
      ∀ q ∈ (pass2 nClusters freeDays daysForFlex st).1, P q.2 := by
  unfold pass2
  suffices h : ∀ (l : List Nat) (st : List (Nat × Int) × List Int),
      (∀ q ∈ st.1, P q.2) →
      ∀ q ∈ (l.foldl
        (fun st cid =>
          if (akeys st.1).contains cid then st
          else
            match freeDays.find? (fun d => !st.2.contains d) with
            | some day => (st.1 ++ [(cid, day)], st.2 ++ [day])
            | none =>
              match daysForFlex.find? (fun d => !st.2.contains d) with
              | some day => (st.1 ++ [(cid, day)], st.2 ++ [day])
              | none => st) st).1, P q.2 by
    exact fun st hst => h (List.range nClusters) st hst
  intro l
  induction l with
  | nil => intro st hst q hq; exact hst q hq
  | cons cid t ih =>
    intro st hst q hq
    rw [List.foldl_cons] at hq
    refine ih _ ?_ q hq
    by_cases hc : (akeys st.1).contains cid = true
    · simp only [hc, if_true]
      exact hst
    · simp only [hc, if_false, Bool.false_eq_true]
      cases hf : freeDays.find? (fun d => !st.2.contains d) with
      | some day =>
        simp only []
        intro r hr
        rcases List.mem_append.mp hr with h1 | h1
        · exact hst r h1
        · rw [List.mem_singleton.mp h1]
          exact hfree day (List.mem_of_find?_eq_some hf)
      | none =>
        simp only []
        cases hf2 : daysForFlex.find? (fun d => !st.2.contains d) with
        | some day =>
          simp only []
          intro r hr
          rcases List.mem_append.mp hr with h1 | h1
          · exact hst r h1
          · rw [List.mem_singleton.mp h1]
            exact hdff day (List.mem_of_find?_eq_some hf2)
        | none => simp only []; exact hst

theorem clusterToDayOf_values {dist : Coord → Coord → ℚ} {coordinates : CoordMap}
    {centers : List Coord} {nClusters : Nat} {prefA : List (String × Int)}
    {dwpList freeDays daysForFlex : List Int}
    (hsub : ∀ d ∈ dwpList, d ∈ daysForFlex) (hfree : ∀ d ∈ freeDays, d ∈ daysForFlex) :
    ∀ q ∈ clusterToDayOf dist coordinates centers nClusters prefA dwpList freeDays daysForFlex,
      q.2 ∈ daysForFlex := by
  unfold clusterToDayOf
  split
  · intro q hq
    have h1 : q.2 ∈ daysForFlex.take nClusters := by
      have := List.mem_map_of_mem Prod.snd hq
      rwa [List.enum_map_snd] at this
    exact List.mem_of_mem_take h1
  · intro q hq
    refine pass2_values hfree (fun d hd => hd) _ ?_ q hq
    exact pass1_values (fun r hr => hsub r.1 (mem_prefCentroids r hr))

theorem akeys_flexDaysOf {flexible : List String} {labels : List Nat}
    {ctd : List (Nat × Int)} {daysForFlex : List Int} :
    akeys (flexDaysOf flexible labels ctd daysForFlex) = flexible := by
  unfold flexDaysOf akeys
  rw [List.map_map]
  have h : (Prod.fst ∘ fun p : Nat × String =>
      ((p.2 : String), (alookup ctd (labels.getD p.1 0)).getD (daysForFlex.headD 1))) =
      Prod.snd := rfl
  rw [h, List.enum_map_snd]

theorem flexDay_lookup_mem {flexible : List String} {labels : List Nat}
    {ctd : List (Nat × Int)} {daysForFlex : List Int}
    (hctd : ∀ q ∈ ctd, q.2 ∈ daysForFlex) (hne : daysForFlex ≠ [])
    {n : String} (hn : n ∈ flexible) :
    (alookup (flexDaysOf flexible labels ctd daysForFlex) n).getD 1 ∈ daysForFlex := by
  cases hl : alookup (flexDaysOf flexible labels ctd daysForFlex) n with
  | none =>
    exfalso
    rw [alookup_eq_none, akeys_flexDaysOf] at hl
    exact hl hn
  | some d =>
    simp only [Option.getD_some]
    have hmem := alookup_eq_some_mem hl
    unfold flexDaysOf at hmem
    rcases List.mem_map.mp hmem with ⟨p, hp, heq⟩
    have hd : (alookup ctd (labels.getD p.1 0)).getD (daysForFlex.headD 1) = d :=
      congrArg Prod.snd heq
    cases hc : alookup ctd (labels.getD p.1 0) with
    | none =>
      rw [hc, Option.getD_none] at hd
      rw [← hd]
      exact headD_mem hne 1
    | some v =>
      rw [hc, Option.getD_some] at hd
      exact hd ▸ hctd _ (alookup_eq_some_mem hc)

theorem nClustersOf_ne_zero {dwpE : List Int → List Int} {numDays : Int}
    {coordinates : CoordMap} {prefs isolated : List (String × Int)}
    (hflex : (flexibleOf coordinates prefs isolated).length ≠ 0)
    (hdff : daysForFlexOf dwpE numDays coordinates prefs isolated ≠ []) :
    nClustersOf dwpE numDays coordinates prefs isolated ≠ 0 := by
  unfold nClustersOf
  have h1 : (daysForFlexOf dwpE numDays coordinates prefs isolated).length ≠ 0 :=
    fun h => hdff (List.eq_nil_of_length_eq_zero h)
  omega

theorem scenario2Fit_shape (setE : List String → List String) (dist : Coord → Coord → ℚ)
    (coordinates : CoordMap) (prefs isolated : List (String × Int))
    (dwpE : List Int → List Int) (numDays : Int) (startingPoint : Option String)
    (lc : List Nat × List Coord)
    (hdff : daysForFlexOf dwpE numDays coordinates prefs isolated ≠ []) :
    ∃ flexDay : String → Int,
      (∀ n ∈ flexibleOf coordinates prefs isolated,
        flexDay n ∈ daysForFlexOf dwpE numDays coordinates prefs isolated) ∧
      scenario2Fit setE dist coordinates prefs isolated dwpE numDays startingPoint lc =
        mkScenario2Payload setE dist coordinates (isolatedAOf coordinates isolated)
          (prefAOf coordinates prefs isolated) flexDay startingPoint := by
  refine ⟨_, ?_, rfl⟩
  intro n hn
  apply flexDay_lookup_mem
  · apply clusterToDayOf_values
    · intro d hd
      unfold daysForFlexOf
      exact List.mem_append_left _ hd
    · intro d hd
      unfold daysForFlexOf
      exact List.mem_append_right _ hd
  · exact hdff
  · exact hn

/-- Success inversion for organize_attractions_by_days: all validations
passed and the payload is the scenario 1 grouping of the merged predefined
days, or the scenario 2 grouping for some flexible-day assignment whose
values stay inside the flexible day pool. -/
theorem organizeE_ok_inversion (numDays : Int) (coordinates : CoordMap)
    (allCoordsOk : Bool) (prefs isolated : List (String × Int)) (optimize : Bool)
    (startingPoint : Option String) (minPerDay maxPerDay : Option Int)
    (dwpE : List Int → List Int) (kmU : List Coord → Nat → List Nat × List Coord)
    (kmC : List Coord → Nat → Int → Int → List Nat × List Coord)
    (setE : List String → List String) (dist : Coord → Coord → ℚ) (p : OkPayload)
    (hok : organizeE numDays coordinates allCoordsOk prefs isolated optimize startingPoint
      minPerDay maxPerDay dwpE kmU kmC setE dist = .ok p) :
    validateDayAssignments prefs numDays = none ∧
    validateDayAssignments isolated numDays = none ∧
    (akeys (pyMerge prefs isolated)).filter (fun n => !(akeys coordinates).contains n) = [] ∧
    (prefAOf coordinates prefs isolated).filter
      (fun q => (reservedOf coordinates isolated).contains q.2) = [] ∧
    (((flexibleOf coordinates prefs isolated).length = 0 ∧
        p = mkPredefinedPayload setE dist coordinates (pyMerge prefs isolated)
          startingPoint optimize) ∨
      ((flexibleOf coordinates prefs isolated).length ≠ 0 ∧
        daysForFlexOf dwpE numDays coordinates prefs isolated ≠ [] ∧
        ∃ flexDay : String → Int,
          (∀ n ∈ flexibleOf coordinates prefs isolated,
            flexDay n ∈ daysForFlexOf dwpE numDays coordinates prefs isolated) ∧
          p = mkScenario2Payload setE dist coordinates (isolatedAOf coordinates isolated)
            (prefAOf coordinates prefs isolated) flexDay startingPoint)) := by
  unfold organizeE at hok
  split at hok
  · exact Except.noConfusion hok
  · split at hok
    · exact Except.noConfusion hok
    · split at hok
      · exact Except.noConfusion hok
      · next hvp =>
        split at hok
        · exact Except.noConfusion hok
        · next hvi =>
          split at hok
          · exact Except.noConfusion hok
          · split at hok
            · exact Except.noConfusion hok
            · split at hok
              · exact Except.noConfusion hok
              · unfold organizeScenario at hok
                split at hok
                · exact Except.noConfusion hok
                · next hmiss =>
                  split at hok
                  · exact Except.noConfusion hok
                  · next hres =>
                    rw [not_not] at hmiss hres
                    refine ⟨hvp, hvi, hmiss, hres, ?_⟩
                    split at hok
                    · next hflex0 =>
                      left
                      exact ⟨hflex0, Except.ok.inj hok.symm⟩
                    · next hflex0 =>
                      right
                      split at hok
                      · exact Except.noConfusion hok
                      · next hdff =>
                        refine ⟨hflex0, hdff, ?_⟩
                        split at hok
                        · next hnc =>
                          exact absurd hnc (nClustersOf_ne_zero hflex0 hdff)
                        · unfold organizeFit at hok
                          split at hok
                          · split at hok
                            · exact Except.noConfusion hok
                            · split at hok
                              · exact Except.noConfusion hok
                              · rcases scenario2Fit_shape setE dist coordinates prefs isolated
                                  dwpE numDays startingPoint _ hdff with ⟨f, hf, hshape⟩
                                exact ⟨f, hf, by rw [Except.ok.inj hok.symm, hshape]⟩
                          · rcases scenario2Fit_shape setE dist coordinates prefs isolated
                              dwpE numDays startingPoint _ hdff with ⟨f, hf, hshape⟩
                            exact ⟨f, hf, by rw [Except.ok.inj hok.symm, hshape]⟩

theorem isolatedA_keys_subset {coordinates : CoordMap} {isolated : List (String × Int)} :
    ∀ k ∈ akeys (isolatedAOf coordinates isolated), k ∈ akeys isolated := by
  intro k hk
  unfold akeys at hk
  rcases List.mem_map.mp hk with ⟨q, hq, rfl⟩
  exact mem_akeys_of_mem (List.mem_of_mem_filter hq)

theorem prefA_keys_subset {coordinates : CoordMap} {prefs isolated : List (String × Int)} :
    ∀ k ∈ akeys (prefAOf coordinates prefs isolated), k ∈ akeys prefs := by
  intro k hk
  unfold akeys at hk
  rcases List.mem_map.mp hk with ⟨q, hq, rfl⟩
  exact mem_akeys_of_mem (List.mem_of_mem_filter hq)

theorem coords_subset_merge_of_no_flexible {coordinates : CoordMap}
    {prefs isolated : List (String × Int)}
    (hflex : flexibleOf coordinates prefs isolated = []) :
    ∀ n ∈ akeys coordinates, n ∈ akeys (pyMerge prefs isolated) := by
  intro n hn
  have h2 := List.filter_eq_nil_iff.mp hflex n hn
  simp only [Bool.and_eq_true, Bool.not_eq_true', contains_eq_false] at h2
  rw [not_and_or, not_not, not_not] at h2
  rcases h2 with h3 | h3
  · exact subset_akeys_pyMerge_right prefs isolated n (isolatedA_keys_subset n h3)
  · exact subset_akeys_pyMerge_left prefs isolated n (prefA_keys_subset n h3)

theorem merge_day_bounds {numDays : Int} {prefs isolated : List (String × Int)}
    (hik : (akeys isolated).Nodup)
    (hvp : validateDayAssignments prefs numDays = none)
    (hvi : validateDayAssignments isolated numDays = none)
    {n : String} {d : Int} (h : (n, d) ∈ pyMerge prefs isolated) :
    1 ≤ d ∧ d ≤ numDays := by
  rcases mem_pyMerge hik h with h1 | ⟨_, h1⟩
  · exact validate_none_bounds hvi _ (alookup_eq_some_mem h1)
  · exact validate_none_bounds hvp _ h1

theorem dff_mem_bounds {dwpE : List Int → List Int} {numDays : Int}
    {coordinates : CoordMap} {prefs isolated : List (String × Int)}
    (hD : ∀ l : List Int, (dwpE l).Perm l.dedup)
    (hvp : validateDayAssignments prefs numDays = none)
    {d : Int} (hd : d ∈ daysForFlexOf dwpE numDays coordinates prefs isolated) :
    1 ≤ d ∧ d ≤ numDays := by
  unfold daysForFlexOf at hd
  rcases List.mem_append.mp hd with h1 | h1
  · have h2 := (hD _).mem_iff.mp h1
    rw [List.mem_dedup] at h2
    unfold daysWithPrefValsOf at h2
    rcases List.mem_map.mp h2 with ⟨q, hq, rfl⟩
    exact validate_none_bounds hvp q (List.mem_of_mem_filter hq)
  · unfold freeDaysOf at h1
    have h2 := List.mem_of_mem_filter h1
    unfold daysForKmeansOf at h2
    exact mem_dayRange.mp (List.mem_of_mem_filter h2)

theorem clusterAssign_add_one_bounds {numDays : Int} {coordinates : CoordMap}
    {prefs isolated : List (String × Int)} {flexDay : String → Int}
    (hvp : validateDayAssignments prefs numDays = none)
    (hvi : validateDayAssignments isolated numDays = none)
    (hflexd : ∀ n0 ∈ flexibleOf coordinates prefs isolated,
      1 ≤ flexDay n0 ∧ flexDay n0 ≤ numDays)
    {n : String} (hn : n ∈ akeys coordinates) :
    1 ≤ clusterAssign (isolatedAOf coordinates isolated) (prefAOf coordinates prefs isolated)
        flexDay n + 1 ∧
      clusterAssign (isolatedAOf coordinates isolated) (prefAOf coordinates prefs isolated)
        flexDay n + 1 ≤ numDays := by
  unfold clusterAssign
  cases hp : alookup (prefAOf coordinates prefs isolated) n with
  | some d =>
    have h1 := validate_none_bounds hvp _
      (List.mem_of_mem_filter (alookup_eq_some_mem hp))
    simp only [] at h1 ⊢
    omega
  | none =>
    cases hi : alookup (isolatedAOf coordinates isolated) n with
    | some d =>
      have h1 := validate_none_bounds hvi _
        (List.mem_of_mem_filter (alookup_eq_some_mem hi))
      simp only [] at h1 ⊢
      omega
    | none =>
      have h1 := hflexd n (mem_flexible_of_lookups_none hn hp hi)
      simp only []
      omega

/-- C1: for every successful run of organize_attractions_by_days, the day
buckets joined together are a permutation of the coordinate-store keys, so
every attraction with a coordinate appears exactly once, and every bucket
day is an integer in the interval from 1 to num_days. -/
theorem organize_total_coverage (numDays : Int) (coordinates : CoordMap)
    (allCoordsOk : Bool) (prefs isolated : List (String × Int)) (optimize : Bool)
    (startingPoint : Option String) (minPerDay maxPerDay : Option Int)
    (dwpE : List Int → List Int) (kmU : List Coord → Nat → List Nat × List Coord)
    (kmC : List Coord → Nat → Int → Int → List Nat × List Coord)
    (setE : List String → List String) (dist : Coord → Coord → ℚ)
    (hck : (akeys coordinates).Nodup) (hpk : (akeys prefs).Nodup)
    (hik : (akeys isolated).Nodup)
    (hE : ∀ l : List String, (setE l).Perm l)
    (hD : ∀ l : List Int, (dwpE l).Perm l.dedup)
    (p : OkPayload)
    (hok : organizeE numDays coordinates allCoordsOk prefs isolated optimize startingPoint
      minPerDay maxPerDay dwpE kmU kmC setE dist = .ok p) :
    (bjoin p.organizedDays).Perm (akeys coordinates) ∧
    ∀ q ∈ p.organizedDays, 1 ≤ q.1 ∧ q.1 ≤ numDays := by
  obtain ⟨hvp, hvi, hmiss, hres, hsc⟩ := organizeE_ok_inversion numDays coordinates
    allCoordsOk prefs isolated optimize startingPoint minPerDay maxPerDay dwpE kmU kmC
    setE dist p hok
  rcases hsc with ⟨hflex0, rfl⟩ | ⟨hflex0, hdff, f, hf, rfl⟩
  · simp only [mkPredefinedPayload]
    have hflexnil : flexibleOf coordinates prefs isolated = [] :=
      List.eq_nil_of_length_eq_zero hflex0
    constructor
    · refine (buildDays_join_perm setE dist coordinates (pyMerge prefs isolated)
        startingPoint optimize hE).trans ?_
      have hperm : (akeys (pyMerge prefs isolated)).Perm (akeys coordinates) := by
        rw [List.perm_ext_iff_of_nodup (akeys_pyMerge_nodup hpk hik) hck]
        intro a
        exact ⟨fun h => merge_keys_subset_coords hmiss a h,
          fun h => coords_subset_merge_of_no_flexible hflexnil a h⟩
      exact hperm
    · intro q hq
      have h1 := mem_buildDays_fst setE dist coordinates (pyMerge prefs isolated)
        startingPoint optimize q hq
      rcases List.mem_map.mp h1 with ⟨r, hr, hsnd⟩
      have hb := merge_day_bounds hik hvp hvi (show (r.1, r.2) ∈ pyMerge prefs isolated by
        simpa using hr)
      omega
  · simp only [mkScenario2Payload]
    constructor
    · refine (buildDays_join_perm setE dist coordinates _ startingPoint true hE).trans ?_
      rw [List.map_map]
      rw [show (Prod.fst ∘ fun n => (n, clusterAssign (isolatedAOf coordinates isolated)
        (prefAOf coordinates prefs isolated) f n + 1)) = id from rfl, List.map_id]
    · intro q hq
      have h1 := mem_buildDays_fst setE dist coordinates _ startingPoint true q hq
      rw [List.map_map] at h1
      rcases List.mem_map.mp h1 with ⟨n, hn, hsnd⟩
      have hb := clusterAssign_add_one_bounds hvp hvi
        (fun n0 hn0 => dff_mem_bounds hD hvp (hf n0 hn0)) hn
      simp only [Function.comp] at hsnd
      omega

/-- Witness for C1 at a concrete two-attraction run. -/
theorem organize_total_coverage_witness :
    (bjoin ((⟨[0, 1], [(1, ["A"]), (2, ["B"])], true⟩ : OkPayload).organizedDays)).Perm
      (akeys [("A", (((0 : ℚ), (0 : ℚ)) : Coord)), ("B", ((1 : ℚ), (1 : ℚ)))]) :=
  (organize_total_coverage 2 [("A", ((0 : ℚ), (0 : ℚ))), ("B", ((1 : ℚ), (1 : ℚ)))] true [] []
    false none none none List.dedup kmTrivU kmTrivC idE zeroDist (by decide) (by decide)
    (by decide) (fun l => List.Perm.refl l) (fun l => List.Perm.refl l.dedup)
    ⟨[0, 1], [(1, ["A"]), (2, ["B"])], true⟩ (by decide)).1

theorem merge_day_isolated {coordinates : CoordMap} {prefs isolated : List (String × Int)}
    (hik : (akeys isolated).Nodup)
    (hmiss : (akeys (pyMerge prefs isolated)).filter
      (fun n => !(akeys coordinates).contains n) = [])
    (hres : (prefAOf coordinates prefs isolated).filter
      (fun q => (reservedOf coordinates isolated).contains q.2) = [])
    {n : String} {d : Int} (h : (n, d) ∈ pyMerge prefs isolated)
    (hd : d ∈ isolated.map Prod.snd) :
    alookup isolated n = some d := by
  rcases mem_pyMerge hik h with h1 | ⟨hnone, h1⟩
  · exact h1
  · exfalso
    have hisoeq : isolatedAOf coordinates isolated = isolated :=
      isolatedA_eq_of_subset (isolated_keys_subset_coords hmiss)
    have hnc : n ∈ akeys coordinates :=
      prefs_keys_subset_coords hmiss n (mem_akeys_of_mem h1)
    have hpa : (n, d) ∈ prefAOf coordinates prefs isolated := by
      unfold prefAOf
      rw [List.mem_filter]
      refine ⟨h1, ?_⟩
      rw [Bool.and_eq_true]
      constructor
      · exact contains_eq_true.mpr hnc
      · rw [Bool.not_eq_true', contains_eq_false, hisoeq]
        exact alookup_eq_none.mp hnone
    have hnr := prefA_not_reserved hres _ hpa
    unfold reservedOf at hnr
    rw [hisoeq] at hnr
    exact hnr hd

theorem dff_not_isolated_val {dwpE : List Int → List Int} {numDays : Int}
    {coordinates : CoordMap} {prefs isolated : List (String × Int)}
    (hD : ∀ l : List Int, (dwpE l).Perm l.dedup)
    (hres : (prefAOf coordinates prefs isolated).filter
      (fun q => (reservedOf coordinates isolated).contains q.2) = [])
    {d : Int} (hd : d ∈ daysForFlexOf dwpE numDays coordinates prefs isolated) :
    d ∉ reservedOf coordinates isolated := by
  unfold daysForFlexOf at hd
  rcases List.mem_append.mp hd with h1 | h1
  · have h2 := (hD _).mem_iff.mp h1
    rw [List.mem_dedup] at h2
    unfold daysWithPrefValsOf at h2
    rcases List.mem_map.mp h2 with ⟨q, hq, rfl⟩
    exact prefA_not_reserved hres q hq
  · unfold freeDaysOf at h1
    have h2 := List.mem_of_mem_filter h1
    unfold daysForKmeansOf at h2
    have h3 := (List.mem_filter.mp h2).2
    rw [Bool.not_eq_true', contains_eq_false] at h3
    exact h3

theorem scenario2_day_isolated {dwpE : List Int → List Int} {numDays : Int}
    {coordinates : CoordMap} {prefs isolated : List (String × Int)} {f : String → Int}
    (hD : ∀ l : List Int, (dwpE l).Perm l.dedup)
    (hmiss : (akeys (pyMerge prefs isolated)).filter
      (fun n => !(akeys coordinates).contains n) = [])
    (hres : (prefAOf coordinates prefs isolated).filter
      (fun q => (reservedOf coordinates isolated).contains q.2) = [])
    (hf : ∀ n ∈ flexibleOf coordinates prefs isolated,
      f n ∈ daysForFlexOf dwpE numDays coordinates prefs isolated)
    {n : String} (hn : n ∈ akeys coordinates)
    (hd : clusterAssign (isolatedAOf coordinates isolated)
      (prefAOf coordinates prefs isolated) f n + 1 ∈ isolated.map Prod.snd) :
    alookup isolated n = some (clusterAssign (isolatedAOf coordinates isolated)
      (prefAOf coordinates prefs isolated) f n + 1) := by
  have hisoeq : isolatedAOf coordinates isolated = isolated :=
    isolatedA_eq_of_subset (isolated_keys_subset_coords hmiss)
  unfold clusterAssign at hd ⊢
  cases hp : alookup (prefAOf coordinates prefs isolated) n with
  | some dp =>
    exfalso
    rw [hp] at hd
    simp only [] at hd
    rw [sub_add_cancel] at hd
    have hnr := prefA_not_reserved hres _ (alookup_eq_some_mem hp)
    unfold reservedOf at hnr
    rw [hisoeq] at hnr
    exact hnr hd
  | none =>
    rw [hp] at hd
    cases hi : alookup (isolatedAOf coordinates isolated) n with
    | some di =>
      rw [hi] at hd
      simp only [] at hd ⊢
      rw [sub_add_cancel] at hd ⊢
      rw [← hisoeq]
      exact hi
    | none =>
      exfalso
      rw [hi] at hd
      simp only [] at hd
      rw [sub_add_cancel] at hd
      have hmemflex := mem_flexible_of_lookups_none hn hp hi
      have hdff := hf n hmemflex
      have hnr := dff_not_isolated_val hD hres hdff
      unfold reservedOf at hnr
      rw [hisoeq] at hnr
      exact hnr hd

/-- C2: in every successful run, a day reserved by isolated_days contains
only attractions that isolated_days maps to exactly that day. -/
theorem organize_reserved_day_exclusivity (numDays : Int) (coordinates : CoordMap)
    (allCoordsOk : Bool) (prefs isolated : List (String × Int)) (optimize : Bool)
    (startingPoint : Option String) (minPerDay maxPerDay : Option Int)
    (dwpE : List Int → List Int) (kmU : List Coord → Nat → List Nat × List Coord)
    (kmC : List Coord → Nat → Int → Int → List Nat × List Coord)
    (setE : List String → List String) (dist : Coord → Coord → ℚ)
    (hik : (akeys isolated).Nodup)
    (hE : ∀ l : List String, (setE l).Perm l)
    (hD : ∀ l : List Int, (dwpE l).Perm l.dedup)
    (p : OkPayload)
    (hok : organizeE numDays coordinates allCoordsOk prefs isolated optimize startingPoint
      minPerDay maxPerDay dwpE kmU kmC setE dist = .ok p)
    (q : Int × List String) (hq : q ∈ p.organizedDays)
    (hqd : q.1 ∈ isolated.map Prod.snd) (n : String) (hn : n ∈ q.2) :
    alookup isolated n = some q.1 := by
  obtain ⟨hvp, hvi, hmiss, hres, hsc⟩ := organizeE_ok_inversion numDays coordinates
    allCoordsOk prefs isolated optimize startingPoint minPerDay maxPerDay dwpE kmU kmC
    setE dist p hok
  rcases hsc with ⟨hflex0, rfl⟩ | ⟨hflex0, hdff, f, hf, rfl⟩
  · simp only [mkPredefinedPayload] at hq
    have hmem := mem_buildDays_snd setE dist coordinates (pyMerge prefs isolated)
      startingPoint optimize hE q hq n hn
    exact merge_day_isolated hik hmiss hres hmem hqd
  · simp only [mkScenario2Payload] at hq
    have hmem := mem_buildDays_snd setE dist coordinates _ startingPoint true hE q hq n hn
    rcases List.mem_map.mp hmem with ⟨m, hm, heq⟩
    simp only [Prod.mk.injEq] at heq
    obtain ⟨rfl, hday⟩ := heq
    rw [← hday] at hqd ⊢
    exact scenario2_day_isolated hD hmiss hres hf hm hqd

/-- Witness for C2 at a concrete run with one isolated and one flexible
attraction. -/
theorem organize_reserved_day_exclusivity_witness :
    alookup [("A", (1 : Int))] "A" = some (((1 : Int), ["A"]) : Int × List String).1 :=
  organize_reserved_day_exclusivity 2 [("A", ((0 : ℚ), (0 : ℚ))), ("B", ((1 : ℚ), (1 : ℚ)))]
    true [] [("A", 1)] false none none none List.dedup kmTrivU kmTrivC idE zeroDist
    (by decide) (fun l => List.Perm.refl l) (fun l => List.Perm.refl l.dedup)
    ⟨[0, 1], [(1, ["A"]), (2, ["B"])], true⟩ (by decide) ((1 : Int), ["A"]) (by decide)
    (by decide) "A" (by decide)

/-- C3 counterexample: a call with attraction A present in both
day_preferences and isolated_days succeeds with a day assignment; no
conflicting-constraint error is raised. -/
theorem organize_overlap_no_error :
    organizeE 2 [("A", ((0 : ℚ), (0 : ℚ))), ("B", ((1 : ℚ), (1 : ℚ)))] true [("A", 1)]
      [("A", 2)] false none none none List.dedup kmTrivU kmTrivC idE zeroDist =
      .ok ⟨[1, 0], [(2, ["A"]), (1, ["B"])], true⟩ := by decide

/-- C3 amended: a name listed in both constraint maps is not rejected; on
every successful run each isolated attraction, including one also carrying a
day preference, lands on its isolated day and the preference is ignored. -/
theorem organize_isolated_precedence (numDays : Int) (coordinates : CoordMap)
    (allCoordsOk : Bool) (prefs isolated : List (String × Int)) (optimize : Bool)
    (startingPoint : Option String) (minPerDay maxPerDay : Option Int)
    (dwpE : List Int → List Int) (kmU : List Coord → Nat → List Nat × List Coord)
    (kmC : List Coord → Nat → Int → Int → List Nat × List Coord)
    (setE : List String → List String) (dist : Coord → Coord → ℚ)
    (hik : (akeys isolated).Nodup)
    (hE : ∀ l : List String, (setE l).Perm l)
    (p : OkPayload)
    (hok : organizeE numDays coordinates allCoordsOk prefs isolated optimize startingPoint
      minPerDay maxPerDay dwpE kmU kmC setE dist = .ok p)
    (n : String) (d : Int) (hiso : alookup isolated n = some d)
    (q : Int × List String) (hq : q ∈ p.organizedDays) (hn : n ∈ q.2) :
    q.1 = d := by
  obtain ⟨hvp, hvi, hmiss, hres, hsc⟩ := organizeE_ok_inversion numDays coordinates
    allCoordsOk prefs isolated optimize startingPoint minPerDay maxPerDay dwpE kmU kmC
    setE dist p hok
  rcases hsc with ⟨hflex0, rfl⟩ | ⟨hflex0, hdff, f, hf, rfl⟩
  · simp only [mkPredefinedPayload] at hq
    have hmem := mem_buildDays_snd setE dist coordinates (pyMerge prefs isolated)
      startingPoint optimize hE q hq n hn
    rcases mem_pyMerge hik hmem with h1 | ⟨hnone, h1⟩
    · rw [hiso] at h1
      exact (Option.some.inj h1).symm
    · rw [hiso] at hnone
      cases hnone
  · simp only [mkScenario2Payload] at hq
    have hmem := mem_buildDays_snd setE dist coordinates _ startingPoint true hE q hq n hn
    rcases List.mem_map.mp hmem with ⟨m, hm, heq⟩
    simp only [Prod.mk.injEq] at heq
    obtain ⟨rfl, hday⟩ := heq
    have hisoeq : isolatedAOf coordinates isolated = isolated :=
      isolatedA_eq_of_subset (isolated_keys_subset_coords hmiss)
    cases hp : alookup (prefAOf coordinates prefs isolated) m with
    | some dp =>
      exfalso
      have hmemp := alookup_eq_some_mem hp
      have hcond := (List.mem_filter.mp hmemp).2
      rw [Bool.and_eq_true] at hcond
      have h2 := hcond.2
      rw [Bool.not_eq_true', contains_eq_false, hisoeq] at h2
      have h3 : m ∉ akeys isolated := h2
      have hmemiso : (m, d) ∈ isolated := alookup_eq_some_mem hiso
      exact h3 (mem_akeys_of_mem hmemiso)
    | none =>
      have hca : clusterAssign (isolatedAOf coordinates isolated)
          (prefAOf coordinates prefs isolated) f m = d - 1 := by
        unfold clusterAssign
        rw [hp, hisoeq, hiso]
      rw [← hday, hca]
      omega

/-- Witness for the C3 amended theorem at the overlap run of the
counterexample. -/
theorem organize_isolated_precedence_witness :
    (((2 : Int), ["A"]) : Int × List String).1 = 2 :=
  organize_isolated_precedence 2 [("A", ((0 : ℚ), (0 : ℚ))), ("B", ((1 : ℚ), (1 : ℚ)))] true
    [("A", 1)] [("A", 2)] false none none none List.dedup kmTrivU kmTrivC idE zeroDist
    (by decide) (fun l => List.Perm.refl l)
    ⟨[1, 0], [(2, ["A"]), (1, ["B"])], true⟩ (by decide) "A" 2 (by decide)
    ((2 : Int), ["A"]) (by decide) (by decide)

/-- C4: with flexible attractions present and at least one size bound set,
after the earlier validations pass the engine fails with the
infeasible-minimum error exactly when min times the cluster count exceeds
the flexible total, fails with the infeasible-maximum error when max times
the cluster count falls short of it, and otherwise succeeds, invoking the
constrained fit with the unclamped bounds; under the size contract of the
constrained fit every cluster size then lies between min and max. -/
theorem organize_size_feasibility (numDays : Int) (coordinates : CoordMap)
    (allCoordsOk : Bool) (prefs isolated : List (String × Int)) (optimize : Bool)
    (startingPoint : Option String) (minPerDay maxPerDay : Option Int)
    (dwpE : List Int → List Int) (kmU : List Coord → Nat → List Nat × List Coord)
    (kmC : List Coord → Nat → Int → Int → List Nat × List Coord)
    (setE : List String → List String) (dist : Coord → Coord → ℚ)
    (hpre : preChecksPass numDays coordinates allCoordsOk prefs isolated minPerDay
      maxPerDay dwpE)
    (hconstr : (minPerDay.isSome || maxPerDay.isSome) = true)
    (hflex : flexibleOf coordinates prefs isolated ≠ [])
    (hKC : pyIntOr minPerDay 0 *
        (nClustersOf dwpE numDays coordinates prefs isolated : Int) ≤
        ((flexibleOf coordinates prefs isolated).length : Int) →
      ((flexibleOf coordinates prefs isolated).length : Int) ≤
        pyIntOr maxPerDay ((flexibleOf coordinates prefs isolated).length : Int) *
          (nClustersOf dwpE numDays coordinates prefs isolated : Int) →
      ∀ c : Nat, c < nClustersOf dwpE numDays coordinates prefs isolated →
        pyIntOr minPerDay 0 ≤
          ((kmC (coordsFlexOf coordinates prefs isolated)
            (nClustersOf dwpE numDays coordinates prefs isolated)
            (pyIntOr minPerDay 0)
            (pyIntOr maxPerDay
              ((flexibleOf coordinates prefs isolated).length : Int))).1.count c : Int) ∧
        (((kmC (coordsFlexOf coordinates prefs isolated)
            (nClustersOf dwpE numDays coordinates prefs isolated)
            (pyIntOr minPerDay 0)
            (pyIntOr maxPerDay
              ((flexibleOf coordinates prefs isolated).length : Int))).1.count c : Int) ≤
          pyIntOr maxPerDay ((flexibleOf coordinates prefs isolated).length : Int))) :
    ((((flexibleOf coordinates prefs isolated).length : Int) <
        pyIntOr minPerDay 0 *
          (nClustersOf dwpE numDays coordinates prefs isolated : Int)) →
      organizeE numDays coordinates allCoordsOk prefs isolated optimize startingPoint
          minPerDay maxPerDay dwpE kmU kmC setE dist =
        .error (.infeasibleMin (pyIntOr minPerDay 0)
          (nClustersOf dwpE numDays coordinates prefs isolated)
          (pyIntOr minPerDay 0 *
            (nClustersOf dwpE numDays coordinates prefs isolated : Int))
          ((flexibleOf coordinates prefs isolated).length : Int))) ∧
    (¬ (((flexibleOf coordinates prefs isolated).length : Int) <
        pyIntOr minPerDay 0 *
          (nClustersOf dwpE numDays coordinates prefs isolated : Int)) →
      (pyIntOr maxPerDay ((flexibleOf coordinates prefs isolated).length : Int) *
          (nClustersOf dwpE numDays coordinates prefs isolated : Int) <
          ((flexibleOf coordinates prefs isolated).length : Int)) →
      organizeE numDays coordinates allCoordsOk prefs isolated optimize startingPoint
          minPerDay maxPerDay dwpE kmU kmC setE dist =
        .error (.infeasibleMax
          (pyIntOr maxPerDay ((flexibleOf coordinates prefs isolated).length : Int))
          (nClustersOf dwpE numDays coordinates prefs isolated)
          (pyIntOr maxPerDay ((flexibleOf coordinates prefs isolated).length : Int) *
            (nClustersOf dwpE numDays coordinates prefs isolated : Int))
          ((flexibleOf coordinates prefs isolated).length : Int))) ∧
    ((pyIntOr minPerDay 0 * (nClustersOf dwpE numDays coordinates prefs isolated : Int) ≤
        ((flexibleOf coordinates prefs isolated).length : Int)) →
      (((flexibleOf coordinates prefs isolated).length : Int) ≤
        pyIntOr maxPerDay ((flexibleOf coordinates prefs isolated).length : Int) *
          (nClustersOf dwpE numDays coordinates prefs isolated : Int)) →
      (∃ q : OkPayload, organizeE numDays coordinates allCoordsOk prefs isolated optimize
        startingPoint minPerDay maxPerDay dwpE kmU kmC setE dist = .ok q) ∧
      (∀ c : Nat, c < nClustersOf dwpE numDays coordinates prefs isolated →
        pyIntOr minPerDay 0 ≤
          ((kmC (coordsFlexOf coordinates prefs isolated)
            (nClustersOf dwpE numDays coordinates prefs isolated)
            (pyIntOr minPerDay 0)
            (pyIntOr maxPerDay
              ((flexibleOf coordinates prefs isolated).length : Int))).1.count c : Int) ∧
        (((kmC (coordsFlexOf coordinates prefs isolated)
            (nClustersOf dwpE numDays coordinates prefs isolated)
            (pyIntOr minPerDay 0)
            (pyIntOr maxPerDay
              ((flexibleOf coordinates prefs isolated).length : Int))).1.count c : Int) ≤
          pyIntOr maxPerDay ((flexibleOf coordinates prefs isolated).length : Int)))) := by
  obtain ⟨h1, h2, h3, h4, h5, h6, h7, h8, h9, h10⟩ := hpre
  have hflexlen : (flexibleOf coordinates prefs isolated).length ≠ 0 :=
    fun h => hflex (List.eq_nil_of_length_eq_zero h)
  have hred : organizeE numDays coordinates allCoordsOk prefs isolated optimize
      startingPoint minPerDay maxPerDay dwpE kmU kmC setE dist =
      organizeFit numDays coordinates prefs isolated startingPoint minPerDay maxPerDay
        dwpE kmU kmC setE dist := by
    unfold organizeE
    simp only [h1, h3, h4, h5, h6, h7, Bool.not_true, Bool.false_eq_true, if_false]
    rw [if_neg h2]
    unfold organizeScenario
    rw [if_neg (not_not_intro h8), if_neg (not_not_intro h9), if_neg hflexlen,
      if_neg h10, if_neg (nClustersOf_ne_zero hflexlen h10)]
  refine ⟨?_, ?_, ?_⟩
  · intro hlt
    rw [hred]
    unfold organizeFit
    rw [if_pos hconstr, if_pos hlt]
  · intro hge hlt2
    rw [hred]
    unfold organizeFit
    rw [if_pos hconstr, if_neg hge, if_pos hlt2]
  · intro hge1 hge2
    have hok2 : organizeE numDays coordinates allCoordsOk prefs isolated optimize
        startingPoint minPerDay maxPerDay dwpE kmU kmC setE dist =
        .ok (scenario2Fit setE dist coordinates prefs isolated dwpE numDays startingPoint
          (kmC (coordsFlexOf coordinates prefs isolated)
            (nClustersOf dwpE numDays coordinates prefs isolated) (pyIntOr minPerDay 0)
            (pyIntOr maxPerDay ((flexibleOf coordinates prefs isolated).length : Int)))) := by
      rw [hred]
      unfold organizeFit
      rw [if_pos hconstr, if_neg (not_lt.mpr hge1), if_neg (not_lt.mpr hge2)]
    exact ⟨⟨_, hok2⟩, hKC hge1 hge2⟩

/-- Witness for C4: one flexible attraction with a minimum of two per day is
rejected with the infeasible-minimum error. -/
theorem organize_size_feasibility_witness :
    organizeE 1 [("A", ((0 : ℚ), (0 : ℚ)))] true [] [] false none (some 2) none List.dedup
      kmTrivU kmTrivC idE zeroDist = .error (.infeasibleMin 2 1 2 1) :=
  (organize_size_feasibility 1 [("A", ((0 : ℚ), (0 : ℚ)))] true [] [] false none (some 2)
    none List.dedup kmTrivU kmTrivC idE zeroDist
    (by unfold preChecksPass; refine ⟨rfl, by decide, by decide, by decide, by decide,
      by decide, by decide, by decide, by decide, by decide⟩)
    (by decide) (by decide) (by decide)).1 (by decide)

theorem nnLoopF_eq_of_perm (dist : Coord → Coord → ℚ) (coordinates : CoordMap)
    (awc : List String)
    (hinj : ∀ c ∈ awc, ∀ a ∈ awc, ∀ b ∈ awc, a ≠ b →
      dist (coordOf coordinates a) (coordOf coordinates c) ≠
        dist (coordOf coordinates b) (coordOf coordinates c)) :
    ∀ (fuel : Nat) (l1 l2 : List String) (cur : String), cur ∈ awc →
      (∀ x ∈ l1, x ∈ awc) → l1.Perm l2 → l1.length ≤ fuel →
      nnLoopF dist coordinates fuel cur l1 = nnLoopF dist coordinates fuel cur l2 := by
  intro fuel
  induction fuel with
  | zero =>
    intro l1 l2 cur _ _ hp hlen
    have h1 : l1 = [] := List.eq_nil_of_length_eq_zero (Nat.le_zero.mp hlen)
    subst h1
    have h2 : l2 = [] := hp.symm.eq_nil
    subst h2
    rfl
  | succ f ih =>
    intro l1 l2 cur hcur hsub hp hlen
    cases l1 with
    | nil =>
      have h2 : l2 = [] := hp.symm.eq_nil
      subst h2
      rfl
    | cons r rs =>
      cases l2 with
      | nil => exact absurd hp.eq_nil (by simp)
      | cons b m =>
        rw [nnLoopF, nnLoopF]
        have hpm : pyMin (fun a => dist (coordOf coordinates a) (coordOf coordinates cur))
            r rs =
            pyMin (fun a => dist (coordOf coordinates a) (coordOf coordinates cur)) b m := by
          apply pyMin_eq_of_perm _ _ _ _ _ hp
          intro x hx y hy hxy
          exact hinj cur hcur x (hsub x hx) y (hsub y hy) hxy
        rw [hpm]
        congr 1
        apply ih
        · have hm := pyMin_mem
            (fun a => dist (coordOf coordinates a) (coordOf coordinates cur)) b m
          exact hsub _ (hp.mem_iff.mpr hm)
        · intro x hx
          exact hsub x (List.erase_subset _ _ hx)
        · exact hp.erase _
        · have hm : pyMin (fun a => dist (coordOf coordinates a) (coordOf coordinates cur))
              b m ∈ r :: rs := hp.mem_iff.mpr (pyMin_mem _ b m)
          rw [List.length_erase_of_mem hm]
          simpa using Nat.le_of_succ_le_succ hlen

theorem calculateCentroid_isSome {coordinates : CoordMap} {names : List String}
    (hne : names ≠ []) (hall : ∀ x ∈ names, hasCoord coordinates x = true) :
    ∃ c, calculateCentroid coordinates names = some c := by
  unfold calculateCentroid
  rw [if_neg hne]
  split
  · next hfm =>
    exfalso
    rcases List.exists_mem_of_ne_nil names hne with ⟨x, hx⟩
    have h3 := List.filterMap_eq_nil_iff.mp hfm x hx
    have h4 := hall x hx
    unfold hasCoord at h4
    rw [h3] at h4
    cases h4
  · exact ⟨_, rfl⟩

theorem orderNN_spec_route (setE : List String → List String) (dist : Coord → Coord → ℚ)
    (coordinates : CoordMap) (attractions : List String) (sp : Option String)
    (h2 : 2 ≤ (attractions.filter (hasCoord coordinates)).length) :
    ∃ first ∈ attractions.filter (hasCoord coordinates),
      orderNN setE dist coordinates attractions sp =
        startRouteFrom setE dist coordinates (attractions.filter (hasCoord coordinates))
          (attractions.filter (fun a => !hasCoord coordinates a)) first := by
  unfold orderNN
  rw [if_neg (by
    have := List.length_filter_le (hasCoord coordinates) attractions
    omega), if_neg (by omega)]
  split
  · next s hs =>
    refine ⟨s, ?_, rfl⟩
    unfold startValid at hs
    split at hs
    · split at hs
      · next hc =>
        cases hs
        exact hc.2
      · cases hs
    · cases hs
  · split
    · next a t c hawc hcent =>
      refine ⟨_, ?_, rfl⟩
      rw [hawc]
      exact pyMin_mem _ a t
    · next hno =>
      exfalso
      rcases hawc : attractions.filter (hasCoord coordinates) with _ | ⟨a, t⟩
      · rw [hawc] at h2
        simp at h2
      · have hcent := @calculateCentroid_isSome coordinates
          (attractions.filter (hasCoord coordinates))
          (by rw [hawc]; simp)
          (fun x hx => (List.mem_filter.mp hx).2)
        rcases hcent with ⟨c, hc⟩
        exact hno a t c hawc hc

theorem startRouteFrom_filter (setE : List String → List String)
    (dist : Coord → Coord → ℚ) (coordinates : CoordMap) (attractions : List String)
    (first : String)
    (hE : (setE (attractions.filter (hasCoord coordinates))).Perm
      (attractions.filter (hasCoord coordinates)))
    (hf : first ∈ attractions.filter (hasCoord coordinates)) :
    startRouteFrom setE dist coordinates (attractions.filter (hasCoord coordinates))
      (attractions.filter (fun a => !hasCoord coordinates a)) first =
    (startRouteFrom setE dist coordinates (attractions.filter (hasCoord coordinates))
      (attractions.filter (fun a => !hasCoord coordinates a)) first).filter
        (hasCoord coordinates) ++
    attractions.filter (fun a => !hasCoord coordinates a) := by
  unfold startRouteFrom
  rw [List.filter_append]
  have hmemloop : ∀ x ∈ first :: nnLoopF dist coordinates
      ((setE (attractions.filter (hasCoord coordinates))).erase first).length first
      ((setE (attractions.filter (hasCoord coordinates))).erase first),
      hasCoord coordinates x = true := by
    intro x hx
    rcases List.mem_cons.mp hx with rfl | hx2
    · exact (List.mem_filter.mp hf).2
    · have h3 := (nnLoopF_perm dist coordinates _ _ first (le_refl _)).mem_iff.mp hx2
      have h4 : x ∈ setE (attractions.filter (hasCoord coordinates)) :=
        List.erase_subset _ _ h3
      have h5 := hE.mem_iff.mp h4
      exact (List.mem_filter.mp h5).2
  rw [List.filter_eq_self.mpr hmemloop]
  have hwoc : (attractions.filter (fun a => !hasCoord coordinates a)).filter
      (hasCoord coordinates) = [] := by
    rw [List.filter_eq_nil_iff]
    intro x hx
    have h3 := (List.mem_filter.mp hx).2
    rw [Bool.not_eq_true'] at h3
    rw [h3]
    simp
  rw [hwoc, List.append_nil]

/-- C6 counterexample: with a single coordinate-bearing attraction the route
orderer returns the input list unchanged, so the coordinate-less attraction
A stays in front of the coordinate-bearing attraction B instead of being
appended after it. -/
theorem orderNN_coordless_not_moved :
    ¬ (orderNN idE zeroDist [("B", ((0 : ℚ), (0 : ℚ)))] ["A", "B"] none =
      (orderNN idE zeroDist [("B", ((0 : ℚ), (0 : ℚ)))] ["A", "B"] none).filter
        (hasCoord [("B", ((0 : ℚ), (0 : ℚ)))]) ++
      ["A", "B"].filter (fun a => !hasCoord [("B", ((0 : ℚ), (0 : ℚ)))] a)) := by
  decide

/-- C6 amended: when at least two attractions carry coordinates, the route
orderer emits the coordinate-bearing attractions first and appends the
coordinate-less ones after them in input order; with at most one
coordinate-bearing attraction, the input list is returned unchanged. -/
theorem orderNN_coordless_appended (setE : List String → List String)
    (dist : Coord → Coord → ℚ) (coordinates : CoordMap) (attractions : List String)
    (sp : Option String) (hE : ∀ l : List String, (setE l).Perm l) :
    (2 ≤ (attractions.filter (hasCoord coordinates)).length →
      orderNN setE dist coordinates attractions sp =
        (orderNN setE dist coordinates attractions sp).filter (hasCoord coordinates) ++
        attractions.filter (fun a => !hasCoord coordinates a)) ∧
    ((attractions.filter (hasCoord coordinates)).length ≤ 1 →
      orderNN setE dist coordinates attractions sp = attractions) := by
  constructor
  · intro h2
    rcases orderNN_spec_route setE dist coordinates attractions sp h2 with ⟨first, hf, heq⟩
    rw [heq]
    exact startRouteFrom_filter setE dist coordinates attractions first (hE _) hf
  · intro h1
    unfold orderNN
    split
    · rfl
    · rfl

/-- Witness for the C6 amended theorem: two coordinate-bearing attractions
and one coordinate-less attraction. -/
theorem orderNN_coordless_appended_witness :
    orderNN idE zeroDist [("A", ((0 : ℚ), (0 : ℚ))), ("B", ((1 : ℚ), (0 : ℚ)))]
      ["A", "B", "X"] none =
      (orderNN idE zeroDist [("A", ((0 : ℚ), (0 : ℚ))), ("B", ((1 : ℚ), (0 : ℚ)))]
        ["A", "B", "X"] none).filter
          (hasCoord [("A", ((0 : ℚ), (0 : ℚ))), ("B", ((1 : ℚ), (0 : ℚ)))]) ++
      ["A", "B", "X"].filter
        (fun a => !hasCoord [("A", ((0 : ℚ), (0 : ℚ))), ("B", ((1 : ℚ), (0 : ℚ)))] a) :=
  (orderNN_coordless_appended idE zeroDist
    [("A", ((0 : ℚ), (0 : ℚ))), ("B", ((1 : ℚ), (0 : ℚ)))] ["A", "B", "X"] none
    (fun l => List.Perm.refl l)).1 (by decide)

/-- C5 counterexample: with two attractions at equal distance from the
chosen start, the route depends on the iteration order of the Python set of
unvisited attractions; the reversed enumeration yields a different route
than the input-order enumeration, so ties are not broken by input order. -/
theorem orderNN_tie_depends_on_set_order :
    orderNN revE distW
      [("C", ((0 : ℚ), (0 : ℚ))), ("A", ((1 : ℚ), (0 : ℚ))), ("B", ((0 : ℚ), (1 : ℚ)))]
      ["C", "A", "B"] (some "C") ≠
    orderNN idE distW
      [("C", ((0 : ℚ), (0 : ℚ))), ("A", ((1 : ℚ), (0 : ℚ))), ("B", ((0 : ℚ), (1 : ℚ)))]
      ["C", "A", "B"] (some "C") := by
  decide

/-- C5 amended: the start selection is as claimed (user starting point when
it is a non-empty coordinate-bearing member, else the member nearest the
centroid with ties by input order), and the traversal appends the nearest
unvisited attraction, but its tie-break follows the iteration order of the
unvisited set; when no two members are equidistant from any member, the
route is independent of that order and equals the input-order route. -/
theorem orderNN_tie_free_deterministic (setE : List String → List String)
    (dist : Coord → Coord → ℚ) (coordinates : CoordMap) (attractions : List String)
    (sp : Option String)
    (hE : ∀ l : List String, (setE l).Perm l)
    (hTF : ∀ c ∈ attractions.filter (hasCoord coordinates),
      ∀ a ∈ attractions.filter (hasCoord coordinates),
      ∀ b ∈ attractions.filter (hasCoord coordinates), a ≠ b →
        dist (coordOf coordinates a) (coordOf coordinates c) ≠
          dist (coordOf coordinates b) (coordOf coordinates c)) :
    orderNN setE dist coordinates attractions sp =
      orderNN idE dist coordinates attractions sp := by
  have hroute : ∀ first ∈ attractions.filter (hasCoord coordinates),
      startRouteFrom setE dist coordinates (attractions.filter (hasCoord coordinates))
        (attractions.filter (fun a => !hasCoord coordinates a)) first =
      startRouteFrom idE dist coordinates (attractions.filter (hasCoord coordinates))
        (attractions.filter (fun a => !hasCoord coordinates a)) first := by
    intro first hf
    unfold startRouteFrom
    have hperm : ((setE (attractions.filter (hasCoord coordinates))).erase first).Perm
        ((idE (attractions.filter (hasCoord coordinates))).erase first) :=
      (hE (attractions.filter (hasCoord coordinates))).erase first
    have hlen := hperm.length_eq
    rw [hlen]
    have hloop := nnLoopF_eq_of_perm dist coordinates
      (attractions.filter (hasCoord coordinates)) hTF
      ((idE (attractions.filter (hasCoord coordinates))).erase first).length
      ((setE (attractions.filter (hasCoord coordinates))).erase first)
      ((idE (attractions.filter (hasCoord coordinates))).erase first)
      first hf
      (fun x hx => (hE _).mem_iff.mp (List.erase_subset _ _ hx))
      hperm (le_of_eq hlen)
    rw [hloop]
  unfold orderNN
  split
  · rfl
  · split
    · rfl
    · split
      · next s hs =>
        apply hroute
        unfold startValid at hs
        split at hs
        · split at hs
          · next hc =>
            cases hs
            exact hc.2
          · cases hs
        · cases hs
      · split
        · next a t c hawc hcent =>
          apply hroute
          rw [hawc]
          exact pyMin_mem _ a t
        · rfl

/-- Witness for the C5 amended theorem: three collinear attractions with
pairwise distinct distances give the same route for the reversed and the
input-order set enumeration. -/
theorem orderNN_tie_free_deterministic_witness :
    orderNN revE distV
      [("A", ((0 : ℚ), (0 : ℚ))), ("B", ((1 : ℚ), (0 : ℚ))), ("C", ((2 : ℚ), (0 : ℚ)))]
      ["A", "B", "C"] (some "A") =
    orderNN idE distV
      [("A", ((0 : ℚ), (0 : ℚ))), ("B", ((1 : ℚ), (0 : ℚ))), ("C", ((2 : ℚ), (0 : ℚ)))]
      ["A", "B", "C"] (some "A") :=
  orderNN_tie_free_deterministic revE distV
    [("A", ((0 : ℚ), (0 : ℚ))), ("B", ((1 : ℚ), (0 : ℚ))), ("C", ((2 : ℚ), (0 : ℚ)))]
    ["A", "B", "C"] (some "A") (fun l => l.reverse_perm) (by decide)

/-- C9: when the organization tool ends in any error, the returned update
carries only the error message, and applying it to the graph state leaves
the clusters, organized days and flexible-attractions flag unchanged. -/
theorem organize_error_preserves_state (numDays : Int) (coordinates : CoordMap)
    (allCoordsOk : Bool) (prefs isolated : List (String × Int)) (optimize : Bool)
    (startingPoint : Option String) (minPerDay maxPerDay : Option Int)
    (dwpE : List Int → List Int) (kmU : List Coord → Nat → List Nat × List Coord)
    (kmC : List Coord → Nat → Int → Int → List Nat × List Coord)
    (setE : List String → List String) (dist : Coord → Coord → ℚ)
    (s : GState) (e : OrgError)
    (herr : (organizeTool numDays coordinates allCoordsOk prefs isolated optimize
      startingPoint minPerDay maxPerDay dwpE kmU kmC setE dist).msg = ToolMsg.errMsg e) :
    applyUpdate s (organizeTool numDays coordinates allCoordsOk prefs isolated optimize
      startingPoint minPerDay maxPerDay dwpE kmU kmC setE dist) = s := by
  unfold organizeTool at herr ⊢
  cases hE2 : organizeE numDays coordinates allCoordsOk prefs isolated optimize
      startingPoint minPerDay maxPerDay dwpE kmU kmC setE dist with
  | error e2 => rfl
  | ok p =>
    rw [hE2] at herr
    cases herr

/-- Witness for C9: an incomplete-coordinates error leaves a non-trivial
state untouched. -/
theorem organize_error_preserves_state_witness :
    (organizeTool 2 [] false [] [] false none none none (fun l => l.dedup)
      kmTrivU kmTrivC idE zeroDist).msg = ToolMsg.errMsg OrgError.incompleteCoordinates ∧
    applyUpdate ⟨[5], [(1, ["Z"])], true⟩
      (organizeTool 2 [] false [] [] false none none none (fun l => l.dedup)
        kmTrivU kmTrivC idE zeroDist) = ⟨[5], [(1, ["Z"])], true⟩ :=
  ⟨by decide, organize_error_preserves_state 2 [] false [] [] false none none none
    (fun l => l.dedup) kmTrivU kmTrivC idE zeroDist ⟨[5], [(1, ["Z"])], true⟩
    OrgError.incompleteCoordinates (by decide)⟩

/-- C10: with a non-empty organization in the state, the approval tool
records the itinerary as approved exactly when the lowercased and stripped
response is one of the fixed approved strings; any other response sets the
approval to false and stores the full response text as user feedback. -/
theorem approval_response_classification (organizedDays : List (Int × List String))
    (response : String) (hne : organizedDays ≠ []) :
    ((requestItineraryApproval organizedDays response).itineraryApproved = some true ↔
      pyStrip (pyLower response) ∈ approvedResponses) ∧
    (pyStrip (pyLower response) ∉ approvedResponses →
      requestItineraryApproval organizedDays response =
        ⟨some false, some response, false⟩) := by
  unfold requestItineraryApproval
  rw [if_neg hne]
  by_cases hm : pyStrip (pyLower response) ∈ approvedResponses
  · rw [if_pos hm]
    exact ⟨⟨fun _ => hm, fun _ => rfl⟩, fun h => absurd hm h⟩
  · rw [if_neg hm]
    refine ⟨⟨fun h => ?_, fun h => absurd h hm⟩, fun _ => rfl⟩
    simp at h

/-- Witness for C10: a response approved after lowercasing and stripping. -/
theorem approval_response_classification_witness :
    [(1, ["A"])] ≠ ([] : List (Int × List String)) ∧
    (requestItineraryApproval [(1, ["A"])] " YES ").itineraryApproved = some true :=
  ⟨by decide, ((approval_response_classification [(1, ["A"])] " YES "
    (by decide)).1).mpr (by decide)⟩

theorem researchLoop_retryable (attractions : List String) (dayNumber : Int)
    (maxRetries : Nat) (outcome : Nat → AttemptOutcome) :
    ∀ (fuel retry : Nat), retry + fuel = maxRetries + 1 → retry ≤ maxRetries →
      (∀ i, i ≤ maxRetries →
        outcome i = .validationFailure ∨ outcome i = .rateLimit) →
      researchLoop attractions dayNumber maxRetries outcome retry fuel =
        fallbackRecords attractions dayNumber := by
  intro fuel
  induction fuel with
  | zero =>
    intro retry h1 h2 _
    omega
  | succ f ih =>
    intro retry h1 h2 hall
    rcases hall retry h2 with ho | ho <;>
    · rw [researchLoop, ho]
      simp only []
      by_cases hr : maxRetries < retry + 1
      · rw [if_pos hr]
      · rw [if_neg hr]
        exact ih (retry + 1) (by omega) (by omega) hall

theorem researchLoop_unexpected (attractions : List String) (dayNumber : Int)
    (maxRetries : Nat) (outcome : Nat → AttemptOutcome) :
    ∀ (fuel retry j : Nat), retry + fuel = maxRetries + 1 → retry ≤ j →
      j ≤ maxRetries → outcome j = .unexpectedError →
      (∀ i, retry ≤ i → i < j →
        outcome i = .validationFailure ∨ outcome i = .rateLimit) →
      researchLoop attractions dayNumber maxRetries outcome retry fuel =
        fallbackRecords attractions dayNumber := by
  intro fuel
  induction fuel with
  | zero =>
    intro retry j h1 h2 h3 _ _
    omega
  | succ f ih =>
    intro retry j h1 h2 h3 hj hpre
    by_cases hrj : retry = j
    · subst hrj
      rw [researchLoop, hj]
    · have hlt : retry < j := lt_of_le_of_ne h2 hrj
      rcases hpre retry (le_refl _) hlt with ho | ho <;>
      · rw [researchLoop, ho]
        simp only []
        rw [if_neg (by omega)]
        exact ih (retry + 1) j (by omega) (by omega) h3 hj
          (fun i hi1 hi2 => hpre i (by omega) hi2)

/-- C7: when every attempt up to max_retries fails with a retryable error
(validation failure or rate limit), or an unexpected error strikes after a
prefix of retryable failures, the researcher node does not abort but
returns exactly one fallback record per input attraction name: the name
populated, the day number attached, and every enrichment field empty or
zero. -/
theorem researcher_exhaustion_fallback (attractions : List String) (dayNumber : Int)
    (maxRetries : Nat) (outcome : Nat → AttemptOutcome)
    (h : (∀ i, i ≤ maxRetries →
        outcome i = .validationFailure ∨ outcome i = .rateLimit) ∨
      (∃ j, j ≤ maxRetries ∧ outcome j = .unexpectedError ∧
        ∀ i, i < j → outcome i = .validationFailure ∨ outcome i = .rateLimit)) :
    attractionResearcherNode attractions dayNumber maxRetries outcome =
      fallbackRecords attractions dayNumber ∧
    (attractionResearcherNode attractions dayNumber maxRetries outcome).map
      (fun r => r.name) = attractions ∧
    ∀ r ∈ attractionResearcherNode attractions dayNumber maxRetries outcome,
      r.dayNumber = dayNumber ∧ r.description = "" ∧ r.images = [] ∧
      r.ticketInfo = [] ∧ r.usefulLinks = [] ∧ r.estimatedCost = 0 := by
  have heq : attractionResearcherNode attractions dayNumber maxRetries outcome =
      fallbackRecords attractions dayNumber := by
    unfold attractionResearcherNode
    rcases h with h | ⟨j, hj1, hj2, hj3⟩
    · exact researchLoop_retryable attractions dayNumber maxRetries outcome
        (maxRetries + 1) 0 (by omega) (by omega) h
    · exact researchLoop_unexpected attractions dayNumber maxRetries outcome
        (maxRetries + 1) 0 j (by omega) (by omega) hj1 hj2
        (fun i _ hi2 => hj3 i hi2)
  refine ⟨heq, ?_, ?_⟩
  · rw [heq]
    unfold fallbackRecords
    rw [List.map_map]
    exact List.map_id attractions
  · rw [heq]
    intro r hr
    unfold fallbackRecords at hr
    rcases List.mem_map.mp hr with ⟨a, _, rfl⟩
    exact ⟨rfl, rfl, rfl, rfl, rfl, rfl⟩

/-- Witness for C7: two attractions, max_retries two, every attempt a
validation failure. -/
theorem researcher_exhaustion_fallback_witness :
    attractionResearcherNode ["A", "B"] 1 2 (fun _ => AttemptOutcome.validationFailure) =
      fallbackRecords ["A", "B"] 1 :=
  (researcher_exhaustion_fallback ["A", "B"] 1 2
    (fun _ => AttemptOutcome.validationFailure)
    (Or.inl (fun _ _ => Or.inl rfl))).1

/-- C8 counterexample: a replacement grouping that lists attraction A on two
days is accepted, so the grouping need not reference every known name
exactly once; the duplicate silently resolves to the later day in the
cluster array. -/
theorem update_itinerary_duplicate_accepted :
    updateItineraryOrganization
      [("A", ((0 : ℚ), (0 : ℚ))), ("B", ((1 : ℚ), (0 : ℚ)))]
      [(1, ["A", "B"]), (2, ["A"])] =
      UpdResult.ok [1, 0] [(1, ["A", "B"]), (2, ["A"])] := by
  decide

/-- C8 amended: with a non-empty coordinate store, the replacement grouping
is accepted exactly when it references the same set of names as the
coordinate store, with a missing-attraction error when a known name is
absent and an unknown-attraction error when an unknown name is present;
multiplicity is not checked, and on acceptance the stored grouping is
replaced by the new grouping as given. -/
theorem update_itinerary_membership (coordinates : CoordMap)
    (newDays : List (Int × List String)) (hne : coordinates ≠ []) :
    ((∃ cl od, updateItineraryOrganization coordinates newDays =
        UpdResult.ok cl od) ↔
      ((∀ n ∈ akeys coordinates, n ∈ bjoin newDays) ∧
       (∀ m ∈ bjoin newDays, m ∈ akeys coordinates))) ∧
    (∀ cl od, updateItineraryOrganization coordinates newDays = UpdResult.ok cl od →
      od = newDays) := by
  unfold updateItineraryOrganization
  rw [if_neg hne]
  by_cases h1 : (akeys coordinates).filter (fun n => !((bjoin newDays).contains n)) = []
  · rw [if_neg (not_not_intro h1)]
    by_cases h2 : (bjoin newDays).filter (fun m => !((akeys coordinates).contains m)) = []
    · rw [if_neg (not_not_intro h2)]
      constructor
      · constructor
        · intro _
          exact ⟨filter_not_contains_eq_nil.mp h1, filter_not_contains_eq_nil.mp h2⟩
        · intro _
          exact ⟨_, _, rfl⟩
      · intro cl od hok
        cases hok
        rfl
    · rw [if_pos h2]
      constructor
      · constructor
        · rintro ⟨cl, od, hok⟩
          cases hok
        · rintro ⟨ha, hb⟩
          exact absurd (filter_not_contains_eq_nil.mpr hb) h2
      · intro cl od hok
        cases hok
  · rw [if_pos h1]
    constructor
    · constructor
      · rintro ⟨cl, od, hok⟩
        cases hok
      · rintro ⟨ha, hb⟩
        exact absurd (filter_not_contains_eq_nil.mpr ha) h1
    · intro cl od hok
      cases hok

/-- Witness for the C8 amended theorem: a one-attraction store and a
grouping naming exactly that attraction is accepted. -/
theorem update_itinerary_membership_witness :
    [("A", ((0 : ℚ), (0 : ℚ)))] ≠ ([] : CoordMap) ∧
    (∃ cl od, updateItineraryOrganization [("A", ((0 : ℚ), (0 : ℚ)))] [(1, ["A"])] =
      UpdResult.ok cl od) :=
  ⟨by decide, ((update_itinerary_membership [("A", ((0 : ℚ), (0 : ℚ)))] [(1, ["A"])]
    (by decide)).1).mpr ⟨by decide, by decide⟩⟩

end Itinerary
